import Mathlib

set_option autoImplicit false

/-!
# A shallow embedding of the zast front end

This file embeds the data model, the Pratt parser and the semantic analyzer
of the zast compiler front end (`src/lexer/tokens.rs`, `src/parser.rs`,
`src/parser/expressions.rs`, `src/parser/statements.rs`, `src/parser/types.rs`,
`src/parser/precedence_table.rs`, `src/types.rs`, `src/types/annotated_type.rs`,
`src/sema.rs`, `src/sema/symbol_type_table.rs`) and proves properties of the
embedded definitions.

Modelling conventions:
* Rust methods mutating `&mut self` become state-passing functions
  `State → Result × State`.
* The mutually recursive parse functions are given a `Nat` fuel argument that
  every nested call decreases; fuel exhaustion yields the failure result
  `(none, state)`.  The source's recursion is bounded by the token stream, so
  any sufficiently large fuel reproduces a real run.
* `Option` models Rust's `Option`; functions whose source can `panic!`,
  `todo!` or `unreachable!` return `Option` with `none` standing for the
  panicking branch, noted at each definition.
* `HashMap<String, _>` scopes become association lists with
  `HashMap::insert` semantics (replace-in-place, return the previous value);
  only lookup and insert are used by the source.
* `f64` literal payloads are carried as their source text: no claim and no
  analyzed code path depends on float arithmetic.
-/

namespace Zast

/-- Token kinds, from `src/lexer/tokens.rs` (`TokenKind`).  The shipped enum
declares the variants up to `Const`; the parser and statement code in
`src/parser.rs` / `src/parser/statements.rs` additionally reference
`TokenKind::Fn`, `TokenKind::LeftBrace`, `TokenKind::RightBrace` and
`TokenKind::Ampersand`, which are missing from the enum declaration (the
snapshot is out of sync); we include them so the parser code can be embedded. -/
inductive TokenKind where
  | Illegal
  | Eof
  | String
  | Identifier
  | Integer
  | Float
  | Semicolon
  | Comma
  | Colon
  | Assignment
  | Dot
  | Plus
  | Minus
  | Multiply
  | Divide
  | LeftParenthesis
  | RightParenthesis
  | LeftBrace
  | RightBrace
  | Ampersand
  | Let
  | Const
  | Fn
  deriving DecidableEq, Repr

/-- Source span, from `src/lexer/tokens.rs` (`Span`); all fields 1-based. -/
structure Span where
  col_start : Nat
  col_end : Nat
  ln_start : Nat
  ln_end : Nat
  deriving DecidableEq, Repr

/-- Embeds `Span::default()`: a zeroed span. -/
def Span.default : Span := ⟨0, 0, 0, 0⟩

/-- Literal payload of a token, from `src/lexer/tokens.rs` (`Literal`).
The `f64` payload of `FloatValue` is modelled by its source text. -/
inductive Literal where
  | StringValue (v : String)
  | IntegerValue (v : Int)
  | FloatValue (v : String)
  | Identifier (v : String)
  | None
  deriving DecidableEq, Repr

/-- Embeds `Literal::get_int`. -/
def Literal.get_int : Literal → Option Int
  | .IntegerValue v => some v
  | _ => none

/-- Embeds `Literal::get_float` (payload modelled as source text). -/
def Literal.get_float : Literal → Option String
  | .FloatValue v => some v
  | _ => none

/-- Embeds `Literal::get_identifier`. -/
def Literal.get_identifier : Literal → Option String
  | .Identifier v => some v
  | _ => none

/-- A token, from `src/lexer/tokens.rs` (`Token`). -/
structure Token where
  literal : Literal
  lexeme : String
  span : Span
  kind : TokenKind
  deriving DecidableEq, Repr

/-- Embeds `Token::default()`: the EOF sentinel token. -/
def Token.default : Token := ⟨.None, "", Span.default, .Eof⟩

/-- Precedence levels, from `src/parser/precedence_table.rs` (`Precedence`,
`#[repr(u8)]`, so `Default = 0`, …, `Grouping = 12`). -/
inductive Precedence where
  | Default
  | Assignment
  | Ternary
  | LogicalOr
  | LogicalAnd
  | Equals
  | Comparison
  | Additive
  | Multiplicative
  | Unary
  | Exponent
  | Call
  | Grouping
  deriving DecidableEq, Repr

/-- The `u8` discriminant of a precedence level (`IntoPrimitive` on the
`#[repr(u8)]` enum). -/
def Precedence.toNat : Precedence → Nat
  | .Default => 0
  | .Assignment => 1
  | .Ternary => 2
  | .LogicalOr => 3
  | .LogicalAnd => 4
  | .Equals => 5
  | .Comparison => 6
  | .Additive => 7
  | .Multiplicative => 8
  | .Unary => 9
  | .Exponent => 10
  | .Call => 11
  | .Grouping => 12

/-- The precedence-table lookup, from `Precedence::get_precedence` in
`src/parser/precedence_table.rs`.  The source's match arms bind exactly
`Plus | Minus → Additive`, `Multiply | Divide → Multiplicative` and
`LeftParenthesis → Grouping`; its `_` arm is `todo!(...)`, i.e. a panic, and
the declared return type is `Self` — yet both call sites
(`ZastParser::current_token_precedence` in `src/parser.rs`, which applies
`.map(|p| p.into()).unwrap_or(0)`, and `ZastParser::parse_binary_expr` in
`src/parser/expressions.rs`, which applies `.unwrap_or(Precedence::Default)`)
consume the result with `Option` combinators.  We embed the lookup in the
`Option` form the call sites and the call sites' documentation require;
`none` marks the `_` arm, which in the shipped source is the `todo!()`
panic. -/
def Precedence.get_precedence? : TokenKind → Option Precedence
  | .Plus | .Minus => some .Additive
  | .Multiply | .Divide => some .Multiplicative
  | .LeftParenthesis => some .Grouping
  | _ => none

/-- Expected-token description, from `src/error_handler/zast_errors.rs`
(`Expected`). -/
inductive Expected where
  | Token (kind : TokenKind)
  | Concept (s : String)
  deriving DecidableEq, Repr

/-- Diagnostics, from `src/error_handler/zast_errors.rs` (`ZastError`). -/
inductive ZastError where
  | UnexpectedToken (span : Span) (token_kind : TokenKind)
  | ExpectedToken (span : Span) (expected_tokens : List Expected)
      (found_token : TokenKind)
  | IllegalToken (span : Span) (token_lexeme : String)
  | VariableRedeclaration (span : Span) (variable_name : String)
      (original_span : Span)
  | FunctionRedeclaration (span : Span) (fn_name : String)
      (original_span : Span)
  deriving DecidableEq, Repr

/-- Syntactic type annotations, from `src/types/annotated_type.rs`
(`AnnotatedType`). -/
inductive AnnotatedType where
  | Primitive (name : String)
  | Pointer (inner : AnnotatedType)
  deriving DecidableEq, Repr

/-- Return-type annotation, from `src/types/return_type.rs` (`ReturnType`). -/
inductive ReturnType where
  | Void
  | Type (t : AnnotatedType)
  deriving DecidableEq, Repr

/-- A node paired with its source span, from `src/ast.rs` (`Spanned<T>`). -/
structure Spanned (α : Type) where
  node : α
  span : Span
  deriving DecidableEq, Repr

/-- Expressions, from `src/ast.rs` (`Expr`); `Expression = Spanned<Expr>` is
unfolded into the constructors' recursive fields. -/
inductive Expr where
  | IntegerLiteral (v : Int)
  | FloatLiteral (v : String)
  | Identifier (name : String)
  | Address (inner : Spanned Expr)
  | Dereference (inner : Spanned Expr)
  | BinaryExpression (left : Spanned Expr) (operator : TokenKind)
      (right : Spanned Expr)

/-- Embeds `Expression` alias from `src/ast.rs`. -/
abbrev Expression := Spanned Expr

/-- Embeds `Expr::spanned`. -/
def Expr.spanned (e : Expr) (s : Span) : Expression := ⟨e, s⟩

/-- A function parameter, from `src/ast.rs` (`FunctionParameter`).
The shipped struct has only `name` and `annotated_type`; the analyzer
(`src/sema.rs`, `analyze_stmt`) additionally reads `param.span` when
declaring the parameter, so the snapshot is out of sync and we carry the
field the analyzer requires.  The embedded parser fills it with the span of
the parameter's name token; no claim depends on that choice. -/
structure FunctionParameter where
  name : String
  annotated_type : AnnotatedType
  span : Span
  deriving DecidableEq, Repr

/-- Statements, from `src/ast.rs` (`Stmt`); `Statement = Spanned<Stmt>` is
unfolded into the constructors' recursive fields and the `Box` indirections
are dropped. -/
inductive Stmt where
  | FunctionDeclaration (name : String) (parameters : List FunctionParameter)
      (return_type : ReturnType) (body : Spanned Stmt)
  | BlockStatement (statements : List (Spanned Stmt))
  | Expression (expression : Expression)
  | VariableDeclaration (mutable : Bool) (identifier : String)
      (annotated_type : AnnotatedType) (value : Expression)

/-- Embeds `Statement` alias from `src/ast.rs`. -/
abbrev Statement := Spanned Stmt

/-- Embeds `Stmt::spanned`. -/
def Stmt.spanned (s : Stmt) (sp : Span) : Statement := ⟨s, sp⟩

/-- A parsed program, from `src/ast.rs` (`ZastProgram`). -/
structure ZastProgram where
  body : List Statement

/-- The parser state, from `src/parser.rs` (`ZastParser`).  The NUD/LED and
statement lookup tables of the source are populated once, in
`ZastParser::new`, and never change afterwards; they are embedded as the
fixed dispatch matches inside `try_parse_expr` and `try_parse_stmt` below
(the spec's §9 records the two representations as equivalent), so the state
carries only the token stream, the cursor and the error collector (the
collector's `Vec<ZastError>` as a list, `add_error` = append). -/
structure ZastParser where
  tokens : List Token
  current_token_ptr : Nat
  errors : List ZastError
  deriving DecidableEq, Repr

namespace ZastParser

/-- Embeds `ZastParser::new` (tables are implicit, see `ZastParser`). -/
def new (tokens : List Token) : ZastParser := ⟨tokens, 0, []⟩

/-- Embeds `ZastParser::current_token`.  The source indexes
`self.tokens[self.current_token_ptr]` directly (a panic when out of bounds);
the embedding totalizes with the EOF sentinel.  The cursor never leaves
bounds on a non-empty stream — that is the content of claim C10 below — so
the sentinel is never observed where the source would panic. -/
def current_token (p : ZastParser) : Token :=
  p.tokens.getD p.current_token_ptr Token.default

/-- Embeds `ZastParser::current_token_kind`. -/
def current_token_kind (p : ZastParser) : TokenKind :=
  p.current_token.kind

/-- The index actually read by `ZastParser::peek_at`: the cursor itself when
the lookahead would exceed the stream (the "safe sentinel" of the source's
doc comment), the cursor plus `n` otherwise. -/
def peek_at_index (p : ZastParser) (n : Nat) : Nat :=
  if p.tokens.length ≤ p.current_token_ptr + n then p.current_token_ptr
  else p.current_token_ptr + n

/-- Embeds `ZastParser::peek_at`. -/
def peek_at (p : ZastParser) (n : Nat) : Token :=
  p.tokens.getD (p.peek_at_index n) Token.default

/-- Embeds `ZastParser::peek_token`. -/
def peek_token (p : ZastParser) : Token := p.peek_at 1

/-- Embeds `ZastParser::peek_token_kind`. -/
def peek_token_kind (p : ZastParser) : TokenKind := p.peek_token.kind

/-- Embeds `ZastParser::current_token_precedence`: the table lookup with
`.map(|p| p.into()).unwrap_or(0)` (its doc: "Returns 0 if the current token
has no registered precedence"). -/
def current_token_precedence (p : ZastParser) : Nat :=
  ((Precedence.get_precedence? p.current_token_kind).map Precedence.toNat).getD 0

/-- Embeds `ZastParser::advance`: moves to the next token, but refuses to move past
the last token of the stream. -/
def advance (p : ZastParser) : ZastParser :=
  if p.current_token_ptr + 1 < p.tokens.length then
    { p with current_token_ptr := p.current_token_ptr + 1 }
  else p

/-- Embeds `ZastParser::is_at_eof`. -/
def is_at_eof (p : ZastParser) : Bool :=
  p.current_token_kind = TokenKind.Eof

/-- Embeds `ZastParser::throw_error` / `ZastErrorCollector::add_error`. -/
def throw_error (p : ZastParser) (e : ZastError) : ZastParser :=
  { p with errors := p.errors ++ [e] }

/-- Embeds `ZastParser::check`: match the current token against the expected set
(`Concept` entries never match); record `ExpectedToken` on mismatch; never
advance. -/
def check (p : ZastParser) (expected : List Expected) : Bool × ZastParser :=
  let tok := p.current_token
  let found := expected.any fun e =>
    match e with
    | .Token kind => tok.kind = kind
    | .Concept _ => false
  if found then (true, p)
  else (false, p.throw_error (.ExpectedToken tok.span expected tok.kind))

/-- Embeds `ZastParser::expect`: `check`, then advance on success. -/
def expect (p : ZastParser) (expected : List Expected) : Bool × ZastParser :=
  match p.check expected with
  | (true, p') => (true, p'.advance)
  | (false, p') => (false, p')

/-- Embeds `ZastParser::parse_integer_literal`.  The source builds the node with
`literal.get_int().unwrap()`; the `unwrap` can only panic on a malformed
token (kind `Integer` without an `IntegerValue` payload), modelled as parse
failure `none`. -/
def parse_integer_literal (p : ZastParser) : Option Expression × ZastParser :=
  let span := p.current_token.span
  match p.current_token.literal.get_int with
  | some v => (some ((Expr.IntegerLiteral v).spanned span), p.advance)
  | none => (none, p)

/-- Embeds `ZastParser::parse_float_literal` (same `unwrap` modelling as
`parse_integer_literal`). -/
def parse_float_literal (p : ZastParser) : Option Expression × ZastParser :=
  let span := p.current_token.span
  match p.current_token.literal.get_float with
  | some v => (some ((Expr.FloatLiteral v).spanned span), p.advance)
  | none => (none, p)

/-- Embeds `ZastParser::parse_identifier_literal` (same `unwrap` modelling as
`parse_integer_literal`). -/
def parse_identifier_literal (p : ZastParser) : Option Expression × ZastParser :=
  let span := p.current_token.span
  match p.current_token.literal.get_identifier with
  | some v => (some ((Expr.Identifier v).spanned span), p.advance)
  | none => (none, p)

mutual

/-- Embeds `ZastParser::try_parse_expr` from `src/parser/expressions.rs`: look up
the NUD handler of the current token (the inner `match` is the
`nud_lookup` table populated in `ZastParser::new`); if none is registered,
record `UnexpectedToken` and fail; otherwise run it and enter the Pratt
loop (`parse_led_loop`). -/
def try_parse_expr : Nat → ZastParser → Precedence →
    Option Expression × ZastParser
  | 0, p, _ => (none, p)
  | fuel + 1, p, precedence =>
    let current_tok := p.current_token
    let nud_res : Option (Option Expression × ZastParser) :=
      match current_tok.kind with
      | .Multiply => some (parse_deref_expr fuel p)
      | .Ampersand => some (parse_addr_expr fuel p)
      | .Integer => some (parse_integer_literal p)
      | .Float => some (parse_float_literal p)
      | .Identifier => some (parse_identifier_literal p)
      | .LeftParenthesis => some (parse_grouping_expression fuel p)
      | _ => none
    match nud_res with
    | some (some left, p') => parse_led_loop fuel p' precedence.toNat left
    | some (none, p') => (none, p')
    | none =>
      (none, p.throw_error (.UnexpectedToken current_tok.span current_tok.kind))

/-- The `while` loop inside `try_parse_expr`: while not at EOF, stop when
`prec >= current_token_precedence`, else dispatch the LED handler of the
current token (the `led_lookup` table binds `Plus`, `Minus`, `Divide` and
`Multiply` to `parse_binary_expr`; any other kind has no handler and the
loop stops). -/
def parse_led_loop : Nat → ZastParser → Nat → Expression →
    Option Expression × ZastParser
  | 0, p, _, _ => (none, p)
  | fuel + 1, p, prec, left =>
    if p.is_at_eof then (some left, p)
    else if p.current_token_precedence ≤ prec then (some left, p)
    else
      match p.current_token_kind with
      | .Plus | .Minus | .Divide | .Multiply =>
        match parse_binary_expr fuel p left with
        | (none, p') => (none, p')
        | (some left', p') => parse_led_loop fuel p' prec left'
      | _ => (some left, p)

/-- Embeds `ZastParser::parse_deref_expr`: eat `*`, parse the operand at
`Precedence::Unary`, span from the operator to the operand. -/
def parse_deref_expr : Nat → ZastParser → Option Expression × ZastParser
  | 0, p => (none, p)
  | fuel + 1, p =>
    let op_span := p.current_token.span
    match try_parse_expr fuel p.advance .Unary with
    | (none, p') => (none, p')
    | (some operand, p') =>
      let full_span : Span :=
        ⟨op_span.col_start, operand.span.col_end,
         op_span.ln_start, operand.span.ln_end⟩
      (some ((Expr.Dereference operand).spanned full_span), p')

/-- Embeds `ZastParser::parse_addr_expr`: eat `&`, parse the operand at
`Precedence::Unary`, span from the operator to the operand. -/
def parse_addr_expr : Nat → ZastParser → Option Expression × ZastParser
  | 0, p => (none, p)
  | fuel + 1, p =>
    let op_span := p.current_token.span
    match try_parse_expr fuel p.advance .Unary with
    | (none, p') => (none, p')
    | (some operand, p') =>
      let full_span : Span :=
        ⟨op_span.col_start, operand.span.col_end,
         op_span.ln_start, operand.span.ln_end⟩
      (some ((Expr.Address operand).spanned full_span), p')

/-- Embeds `ZastParser::parse_binary_expr`: eat the operator, parse the right-hand
side at the operator's own precedence
(`Precedence::get_precedence(op).unwrap_or(Precedence::Default)`), result
span is the union of the operand spans. -/
def parse_binary_expr : Nat → ZastParser → Expression →
    Option Expression × ZastParser
  | 0, p, _ => (none, p)
  | fuel + 1, p, left =>
    let op := p.current_token.kind
    let left_span := left.span
    match try_parse_expr fuel p.advance
        ((Precedence.get_precedence? op).getD .Default) with
    | (none, p') => (none, p')
    | (some right, p') =>
      let full_span : Span :=
        ⟨left_span.col_start, right.span.col_end,
         left_span.ln_start, right.span.ln_end⟩
      (some ((Expr.BinaryExpression left op right).spanned full_span), p')

/-- Embeds `ZastParser::parse_grouping_expression`: eat `(`, parse the inner
expression at `Precedence::Default`, require `)`; no node is produced for
the parentheses — the inner expression is returned with its own span. -/
def parse_grouping_expression : Nat → ZastParser → Option Expression × ZastParser
  | 0, p => (none, p)
  | fuel + 1, p =>
    match try_parse_expr fuel p.advance .Default with
    | (none, p') => (none, p')
    | (some e, p') =>
      match p'.expect [.Token .RightParenthesis] with
      | (false, p'') => (none, p'')
      | (true, p'') => (some e, p'')

end

/-- Embeds `ZastParser::parse_primitive_type` from `src/parser/types.rs`: consume
the identifier token, keep its name uninterpreted (`?`-propagation of
`get_identifier` modelled by `none`). -/
def parse_primitive_type (p : ZastParser) : Option AnnotatedType × ZastParser :=
  match p.current_token.literal.get_identifier with
  | some s => (some (.Primitive s), p.advance)
  | none => (none, p)

mutual

/-- Embeds `ZastParser::try_parse_value_type` from `src/parser/types.rs`: `*` →
pointer type, identifier → primitive type, anything else records an
`ExpectedToken` with the `"type annotation"` concept and fails. -/
def try_parse_value_type : Nat → ZastParser → Option AnnotatedType × ZastParser
  | 0, p => (none, p)
  | fuel + 1, p =>
    match p.current_token_kind with
    | .Multiply => parse_pointer_type fuel p
    | .Identifier => parse_primitive_type p
    | _ =>
      let cur_tok := p.current_token
      (none, p.throw_error
        (.ExpectedToken cur_tok.span [.Concept "type annotation"] cur_tok.kind))

/-- Embeds `ZastParser::parse_pointer_type`: eat `*`, recursively parse the
pointee. -/
def parse_pointer_type : Nat → ZastParser → Option AnnotatedType × ZastParser
  | 0, p => (none, p)
  | fuel + 1, p =>
    match try_parse_value_type fuel p.advance with
    | (none, p') => (none, p')
    | (some inner, p') => (some (.Pointer inner), p')

end

/-- Embeds `ZastParser::try_parse_return_type` from `src/parser/types.rs`.  Note
the first line of the source:
`let return_type_str = self.current_token().literal.get_identifier()?;`
— when the current token carries no identifier payload (e.g. a `*` token
opening a pointer return type), the `?` returns `None` *without recording
any diagnostic*.  This silent-failure path decides claim C3 below. -/
def try_parse_return_type (fuel : Nat) (p : ZastParser) :
    Option ReturnType × ZastParser :=
  match p.current_token.literal.get_identifier with
  | none => (none, p)
  | some return_type_str =>
    if return_type_str = "void" then (some .Void, p.advance)
    else
      match try_parse_value_type fuel p with
      | (none, p') => (none, p')
      | (some t, p') => (some (.Type t), p')

mutual

/-- Embeds `ZastParser::try_parse_stmt` from `src/parser/statements.rs`: dispatch
the statement table (`Let`/`Const` → `parse_variable_declaration`, `Fn` →
`parse_function_declaration`), otherwise parse an expression statement
terminated by `;`. -/
def try_parse_stmt : Nat → ZastParser → Option Statement × ZastParser
  | 0, p => (none, p)
  | fuel + 1, p =>
    match p.current_token_kind with
    | .Let | .Const => parse_variable_declaration fuel p
    | .Fn => parse_function_declaration fuel p
    | _ =>
      match try_parse_expr fuel p .Default with
      | (none, p') => (none, p')
      | (some e, p') =>
        match p'.expect [.Token .Semicolon] with
        | (false, p'') => (none, p'')
        | (true, p'') => (some ((Stmt.Expression e).spanned e.span), p'')

/-- Embeds `ZastParser::parse_variable_declaration`:
`('let'|'const') identifier ':' type '=' expr ';'`; mutable iff the keyword
was `let`; span from the keyword to the value expression. -/
def parse_variable_declaration : Nat → ZastParser → Option Statement × ZastParser
  | 0, p => (none, p)
  | fuel + 1, p =>
    let decl_tok_kind := p.current_token.kind
    let decl_span := p.current_token.span
    let p1 := p.advance
    match p1.check [.Token .Identifier] with
    | (false, p2) => (none, p2)
    | (true, p2) =>
      match p2.current_token.literal.get_identifier with
      | none => (none, p2)
      | some identifier =>
        let p3 := p2.advance
        match p3.expect [.Token .Colon] with
        | (false, p4) => (none, p4)
        | (true, p4) =>
          match try_parse_value_type fuel p4 with
          | (none, p5) => (none, p5)
          | (some value_type, p5) =>
            match p5.expect [.Token .Assignment] with
            | (false, p6) => (none, p6)
            | (true, p6) =>
              match try_parse_expr fuel p6 .Default with
              | (none, p7) => (none, p7)
              | (some value, p7) =>
                match p7.expect [.Token .Semicolon] with
                | (false, p8) => (none, p8)
                | (true, p8) =>
                  let full_span : Span :=
                    ⟨decl_span.col_start, value.span.col_end,
                     decl_span.ln_start, value.span.ln_end⟩
                  (some ((Stmt.VariableDeclaration (decl_tok_kind = .Let)
                    identifier value_type value).spanned full_span), p8)

/-- Embeds `ZastParser::parse_function_declaration`:
`'fn' identifier '(' params ')' ':' return_type block`; span from the `fn`
keyword to the body block. -/
def parse_function_declaration : Nat → ZastParser → Option Statement × ZastParser
  | 0, p => (none, p)
  | fuel + 1, p =>
    let fn_tok_span := p.current_token.span
    let p1 := p.advance
    match p1.check [.Token .Identifier] with
    | (false, p2) => (none, p2)
    | (true, p2) =>
      match p2.current_token.literal.get_identifier with
      | none => (none, p2)
      | some fn_name =>
        let p3 := p2.advance
        match parse_function_parameter fuel p3 with
        | (none, p4) => (none, p4)
        | (some parameters, p4) =>
          match p4.expect [.Token .Colon] with
          | (false, p5) => (none, p5)
          | (true, p5) =>
            match try_parse_return_type fuel p5 with
            | (none, p6) => (none, p6)
            | (some return_type, p6) =>
              match parse_block_statement fuel p6 with
              | (none, p7) => (none, p7)
              | (some body, p7) =>
                let full_span : Span :=
                  ⟨fn_tok_span.col_start, body.span.col_end,
                   fn_tok_span.ln_start, body.span.ln_end⟩
                (some ((Stmt.FunctionDeclaration fn_name parameters
                  return_type body).spanned full_span), p7)

/-- Embeds `ZastParser::parse_function_parameter`: `(` then an empty list on an
immediate `)`, otherwise one parameter and the comma loop
(`parse_params_loop`), finally `)`. -/
def parse_function_parameter : Nat → ZastParser →
    Option (List FunctionParameter) × ZastParser
  | 0, p => (none, p)
  | fuel + 1, p =>
    match p.expect [.Token .LeftParenthesis] with
    | (false, p1) => (none, p1)
    | (true, p1) =>
      if p1.current_token_kind = .RightParenthesis then (some [], p1.advance)
      else
        match parse_single_param fuel p1 with
        | (none, p2) => (none, p2)
        | (some prm, p2) =>
          match parse_params_loop fuel p2 [prm] with
          | (none, p3) => (none, p3)
          | (some params, p3) =>
            match p3.expect [.Token .RightParenthesis] with
            | (false, p4) => (none, p4)
            | (true, p4) => (some params, p4)

/-- The `while` loop of `parse_function_parameter`: while not at EOF and the
current token is `,`, eat the comma; a `)` right after the comma ends the
list (optional trailing comma), otherwise parse the next parameter. -/
def parse_params_loop : Nat → ZastParser → List FunctionParameter →
    Option (List FunctionParameter) × ZastParser
  | 0, p, _ => (none, p)
  | fuel + 1, p, params =>
    if p.is_at_eof = false ∧ p.current_token_kind = TokenKind.Comma then
      let p1 := p.advance
      if p1.current_token_kind = .RightParenthesis then (some params, p1)
      else
        match parse_single_param fuel p1 with
        | (none, p2) => (none, p2)
        | (some prm, p2) => parse_params_loop fuel p2 (params ++ [prm])
    else (some params, p)

/-- Embeds `ZastParser::parse_single_param`: `identifier ':' type`.  The span field
of the produced parameter is the name token's span (see
`FunctionParameter`). -/
def parse_single_param : Nat → ZastParser →
    Option FunctionParameter × ZastParser
  | 0, p => (none, p)
  | fuel + 1, p =>
    match p.check [.Token .Identifier] with
    | (false, p1) => (none, p1)
    | (true, p1) =>
      let name_span := p1.current_token.span
      match p1.current_token.literal.get_identifier with
      | none => (none, p1)
      | some name =>
        let p2 := p1.advance
        match p2.expect [.Token .Colon] with
        | (false, p3) => (none, p3)
        | (true, p3) =>
          match try_parse_value_type fuel p3 with
          | (none, p4) => (none, p4)
          | (some annotated_type, p4) =>
            (some ⟨name, annotated_type, name_span⟩, p4)

/-- Embeds `ZastParser::parse_block_statement`: `'{' statement* '}'`; span from `{`
to `}` inclusive. -/
def parse_block_statement : Nat → ZastParser → Option Statement × ZastParser
  | 0, p => (none, p)
  | fuel + 1, p =>
    let lb_span := p.current_token.span
    match p.expect [.Token .LeftBrace] with
    | (false, p1) => (none, p1)
    | (true, p1) =>
      match parse_block_loop fuel p1 [] with
      | (none, p2) => (none, p2)
      | (some stmts, p2) =>
        let rb_span := p2.current_token.span
        match p2.expect [.Token .RightBrace] with
        | (false, p3) => (none, p3)
        | (true, p3) =>
          let full_span : Span :=
            ⟨lb_span.col_start, rb_span.col_end,
             lb_span.ln_start, rb_span.ln_end⟩
          (some ((Stmt.BlockStatement stmts).spanned full_span), p3)

/-- The `while` loop of `parse_block_statement`: one statement per iteration
while the current token is neither `}` nor EOF; a failing statement
(`try_parse_stmt(...)?`) aborts the whole block. -/
def parse_block_loop : Nat → ZastParser → List Statement →
    Option (List Statement) × ZastParser
  | 0, p, _ => (none, p)
  | fuel + 1, p, stmts =>
    if p.is_at_eof = false ∧ p.current_token_kind ≠ TokenKind.RightBrace then
      match try_parse_stmt fuel p with
      | (none, p1) => (none, p1)
      | (some stmt, p1) => parse_block_loop fuel p1 (stmts ++ [stmt])
    else (some stmts, p)

end

/-- The loop body of `ZastParser::sync_tokens` from `src/parser.rs`, with
the nesting `depth` counter: while not at EOF, an opening `(`/`{`
increments depth; a closing `)`/`}` at depth 0 is consumed and recovery
stops, otherwise it decrements depth; a `;` is consumed, and recovery stops
if the depth is 0; any other token is skipped.  (The source's
`TokenKind::Eof => return` arm is unreachable behind the loop condition and
is mirrored here.)  The fuel is spent one unit per iteration; under an
Eof-terminated stream the loop needs at most `tokens.length - cursor`
iterations (claim C8 below). -/
def sync_loop : Nat → Nat → ZastParser → ZastParser
  | 0, _, p => p
  | fuel + 1, depth, p =>
    if p.is_at_eof then p
    else
      match p.current_token_kind with
      | .LeftParenthesis | .LeftBrace => sync_loop fuel (depth + 1) p.advance
      | .RightParenthesis | .RightBrace =>
        if depth = 0 then p.advance else sync_loop fuel (depth - 1) p.advance
      | .Semicolon =>
        if depth = 0 then p.advance else sync_loop fuel depth p.advance
      | .Eof => p
      | _ => sync_loop fuel depth p.advance

/-- Embeds `ZastParser::sync_tokens`: run the recovery loop from depth 0.  The fuel
`tokens.length - cursor` is exact for Eof-terminated streams (claim C8). -/
def sync_tokens (p : ZastParser) : ZastParser :=
  sync_loop (p.tokens.length - p.current_token_ptr) 0 p

/-- The `while` loop of `ZastParser::parse_program`: parse one top-level
statement per iteration; on failure resynchronize with `sync_tokens`, on
success append the node. -/
def parse_program_loop : Nat → ZastParser → List Statement →
    List Statement × ZastParser
  | 0, p, body => (body, p)
  | fuel + 1, p, body =>
    if p.is_at_eof then (body, p)
    else
      match try_parse_stmt fuel p with
      | (none, p1) => parse_program_loop fuel p1.sync_tokens body
      | (some node, p1) => parse_program_loop fuel p1 (body ++ [node])

/-- Embeds `ZastParser::parse_program`: run the statement loop over the whole
stream; `Err` with every recorded diagnostic if the collector is non-empty
(`mem::take` drains it), `Ok(ZastProgram)` otherwise. -/
def parse_program (fuel : Nat) (p : ZastParser) :
    Except (List ZastError) ZastProgram × ZastParser :=
  match parse_program_loop fuel p [] with
  | (body, p1) =>
    if p1.errors.isEmpty then (.ok ⟨body⟩, p1)
    else (.error p1.errors, { p1 with errors := [] })

end ZastParser

/-! ## Type resolver (`src/types.rs`, `src/types/annotated_type.rs`) -/

/-- One step of Rust's `str::parse::<u16>` digit accumulation; the overflow
check (`> u16::MAX` fails) is applied at each step, which for all-digit
input is equivalent to checking the final value. -/
def parseU16Core : List Char → Nat → Option Nat
  | [], acc => some acc
  | c :: cs, acc =>
    if c.isDigit then
      let v := acc * 10 + (c.toNat - '0'.toNat)
      if v < 65536 then parseU16Core cs v else none
    else none

/-- Rust's `str::parse::<u16>`: an optional leading `+`, then one or more
digits, value within `u16` range. -/
def parseU16 : List Char → Option Nat
  | [] => none
  | '+' :: rest => if rest.isEmpty then none else parseU16Core rest 0
  | cs => parseU16Core cs 0

/-- Embeds `t.starts_with(c) && parse::<u16>(&t[1..])`, the pattern shared by the
`AnnotatedType` classifiers (`src/types/annotated_type.rs`); byte slicing
`t[1..]` after a one-byte first character is dropping the first char. -/
def primSuffixNum (c₀ : Char) (t : String) : Option Nat :=
  match t.data with
  | c :: rest => if c = c₀ then parseU16 rest else none
  | [] => none

/-- Embeds `AnnotatedType::is_int`: `i<N>` with a parsable `N ≥ 1`. -/
def AnnotatedType.is_int : AnnotatedType → Bool
  | .Primitive t => ((primSuffixNum 'i' t).map fun n => decide (1 ≤ n)).getD false
  | _ => false

/-- Embeds `AnnotatedType::is_unsigned`: `u<N>` with a parsable `N ≥ 1`. -/
def AnnotatedType.is_unsigned : AnnotatedType → Bool
  | .Primitive t => ((primSuffixNum 'u' t).map fun n => decide (1 ≤ n)).getD false
  | _ => false

/-- Embeds `AnnotatedType::is_float`: `f<N>` with a parsable `N ≥ 1` (note: the
width gate to 16/32/64/128 lives in `get_float_bitwidth`, not here). -/
def AnnotatedType.is_float : AnnotatedType → Bool
  | .Primitive t => ((primSuffixNum 'f' t).map fun n => decide (1 ≤ n)).getD false
  | _ => false

/-- Modelled from the spec: `AnnotatedType::is_bool` is called by
`ValueType::from_annotated_type` in `src/types.rs` but is defined nowhere
under `src/`; per the spec's resolver rule ("`bool` → `Bool`") it holds
exactly of the primitive name `bool`. -/
def AnnotatedType.is_bool : AnnotatedType → Bool
  | .Primitive t => t = "bool"
  | _ => false

/-- Semantic float widths, from `src/types.rs` (`FloatWidth`). -/
inductive FloatWidth where
  | F16
  | F32
  | F64
  | F128
  deriving DecidableEq, Repr

/-- Embeds `AnnotatedType::get_float_bitwidth`: only 16/32/64/128 are accepted. -/
def AnnotatedType.get_float_bitwidth : AnnotatedType → Option FloatWidth
  | .Primitive t =>
    match primSuffixNum 'f' t with
    | some 16 => some .F16
    | some 32 => some .F32
    | some 64 => some .F64
    | some 128 => some .F128
    | _ => none
  | _ => none

/-- Embeds `AnnotatedType::get_int_bitwidth`: the parsed width, rejecting 0. -/
def AnnotatedType.get_int_bitwidth : AnnotatedType → Option Nat
  | .Primitive t =>
    match primSuffixNum 'i' t with
    | some bits => if bits = 0 then none else some bits
    | none => none
  | _ => none

/-- Embeds `AnnotatedType::get_unsigned_bitwidth`: the parsed width, rejecting 0. -/
def AnnotatedType.get_unsigned_bitwidth : AnnotatedType → Option Nat
  | .Primitive t =>
    match primSuffixNum 'u' t with
    | some bits => if bits = 0 then none else some bits
    | none => none
  | _ => none

/-- Semantic value types, from `src/types.rs` (`ValueType`). -/
inductive ValueType where
  | Integer (bits : Nat) (unsigned : Bool)
  | Float (width : FloatWidth)
  | Pointer (inner : ValueType)
  | Bool
  | Void
  | Function (params : List ValueType) (return_type : ValueType)

/-- Embeds `ValueType::from_annotated_type`, from `src/types.rs`.  The source can
panic in two ways, both modelled by `none`: the `get_*_bitwidth().unwrap()`
calls (reachable e.g. for the name `f1`, where `is_float` holds but no
width matches), and the final `unreachable!()` arm, reached whenever none
of `is_int`/`is_unsigned`/`is_float`/`is_bool` holds of the primitive name
(claim C4 below). -/
def ValueType.from_annotated_type : AnnotatedType → Option ValueType
  | .Pointer a => (from_annotated_type a).map .Pointer
  | .Primitive name =>
    let t := AnnotatedType.Primitive name
    if t.is_int then (t.get_int_bitwidth).map (ValueType.Integer · false)
    else if t.is_unsigned then (t.get_unsigned_bitwidth).map (ValueType.Integer · true)
    else if t.is_float then (t.get_float_bitwidth).map ValueType.Float
    else if t.is_bool then some ValueType.Bool
    else none

/-- Embeds `ValueType::from_return_type`. -/
def ValueType.from_return_type : ReturnType → Option ValueType
  | .Void => some .Void
  | .Type t => ValueType.from_annotated_type t

/-- The predicate for the `unreachable!()` arm of
`ValueType::from_annotated_type`: resolving the annotation executes that
arm (for a pointer, in the recursive call on the pointee). -/
def AnnotatedType.hits_unreachable : AnnotatedType → Bool
  | .Pointer a => a.hits_unreachable
  | .Primitive name =>
    let t := AnnotatedType.Primitive name
    !(t.is_int || t.is_unsigned || t.is_float || t.is_bool)

/-! ## Symbol table (`src/sema/symbol_type_table.rs`) -/

/-- A declared symbol, from `SymbolType`. -/
structure SymbolType where
  value_type : ValueType
  span : Span

/-- Lookup in the association-list model of `HashMap<String, SymbolType>`. -/
def lookupSymbol : List (String × SymbolType) → String → Option SymbolType
  | [], _ => none
  | (k, v) :: rest, key => if k = key then some v else lookupSymbol rest key

/-- Embeds `HashMap::insert`: store the new value under the key — replacing any
existing binding in place — and return the previous value if there was
one. -/
def insertSymbol : List (String × SymbolType) → String → SymbolType →
    List (String × SymbolType) × Option SymbolType
  | [], key, v => ([(key, v)], none)
  | (k, w) :: rest, key, v =>
    if k = key then ((k, v) :: rest, some w)
    else
      let (rest', old) := insertSymbol rest key v
      ((k, w) :: rest', old)

/-- One scope, from `SymbolTypeScope`. -/
structure SymbolTypeScope where
  symbols : List (String × SymbolType)
  symbol_count : Nat

/-- Embeds `SymbolTypeScope::new`. -/
def SymbolTypeScope.new : SymbolTypeScope := ⟨[], 0⟩

/-- Embeds `SymbolTypeScope::declare_ident_type`.  Note the source's order of
operations: `self.symbols.insert(..)` runs first, so on a redeclaration the
new binding has already replaced the old one when the
`VariableRedeclaration` error (citing the old binding's span) is returned;
`symbol_count` is only incremented on the success path.  The
`Result<(), ZastError>` is modelled as `Option ZastError` (`some` = `Err`). -/
def SymbolTypeScope.declare_ident_type (sc : SymbolTypeScope)
    (identifier : String) (value_type : ValueType) (span : Span) :
    SymbolTypeScope × Option ZastError :=
  let symbol_type : SymbolType := ⟨value_type, span⟩
  match insertSymbol sc.symbols identifier symbol_type with
  | (symbols', some original) =>
    ({ sc with symbols := symbols' },
     some (.VariableRedeclaration span identifier original.span))
  | (symbols', none) =>
    (⟨symbols', sc.symbol_count + 1⟩, none)

/-- Embeds `SymbolTypeScope::declare_function_type`; same insert-first order as
`declare_ident_type`, wrapping the signature in `ValueType::Function`. -/
def SymbolTypeScope.declare_function_type (sc : SymbolTypeScope)
    (identifier : String) (params : List ValueType) (return_type : ValueType)
    (span : Span) : SymbolTypeScope × Option ZastError :=
  let symbol_type : SymbolType := ⟨.Function params return_type, span⟩
  match insertSymbol sc.symbols identifier symbol_type with
  | (symbols', some original) =>
    ({ sc with symbols := symbols' },
     some (.FunctionRedeclaration span identifier original.span))
  | (symbols', none) =>
    (⟨symbols', sc.symbol_count + 1⟩, none)

/-- Embeds `SymbolTypeScope::get_ident_type`. -/
def SymbolTypeScope.get_ident_type (sc : SymbolTypeScope)
    (identifier : String) : Option SymbolType :=
  lookupSymbol sc.symbols identifier

/-- The scope stack, from `ZastSymbolTypeTable`; `scopes` is the `Vec` with
its top at the end, `scope_depth` indexes the current scope. -/
structure ZastSymbolTypeTable where
  scopes : List SymbolTypeScope
  scope_depth : Nat

/-- Embeds `ZastSymbolTypeTable::new`: one (global) scope, depth 0. -/
def ZastSymbolTypeTable.new : ZastSymbolTypeTable := ⟨[SymbolTypeScope.new], 0⟩

/-- Embeds `ZastSymbolTypeTable::declare_ident_type`: delegate to the scope at
`scope_depth` (`self.scopes[self.scope_depth]`; the source's indexing would
panic out of bounds — the analyzer maintains `scope_depth + 1 =
scopes.len()`, claim C9, so the `getD`/`set` totalization is never
observed). -/
def ZastSymbolTypeTable.declare_ident_type (t : ZastSymbolTypeTable)
    (identifier : String) (value_type : ValueType) (span : Span) :
    ZastSymbolTypeTable × Option ZastError :=
  let scope := t.scopes.getD t.scope_depth SymbolTypeScope.new
  let (scope', err) := scope.declare_ident_type identifier value_type span
  ({ t with scopes := t.scopes.set t.scope_depth scope' }, err)

/-- Embeds `ZastSymbolTypeTable::declare_function_type`. -/
def ZastSymbolTypeTable.declare_function_type (t : ZastSymbolTypeTable)
    (identifier : String) (params : List ValueType) (return_type : ValueType)
    (span : Span) : ZastSymbolTypeTable × Option ZastError :=
  let scope := t.scopes.getD t.scope_depth SymbolTypeScope.new
  let (scope', err) := scope.declare_function_type identifier params return_type span
  ({ t with scopes := t.scopes.set t.scope_depth scope' }, err)

/-- Embeds `ZastSymbolTypeTable::resolve_ident_type`: innermost scope first. -/
def ZastSymbolTypeTable.resolve_ident_type (t : ZastSymbolTypeTable)
    (identifier : String) : Option SymbolType :=
  t.scopes.reverse.findSome? fun sc => sc.get_ident_type identifier

/-- Embeds `ZastSymbolTypeTable::enter_scope`: push an empty scope. -/
def ZastSymbolTypeTable.enter_scope (t : ZastSymbolTypeTable) :
    ZastSymbolTypeTable :=
  ⟨t.scopes ++ [SymbolTypeScope.new], t.scope_depth + 1⟩

/-- Embeds `ZastSymbolTypeTable::exit_scope`: pop and discard the top scope
(`Vec::pop`; `scope_depth -= 1` is Rust `usize` arithmetic, modelled by
truncated `Nat` subtraction — the analyzer only exits scopes it entered). -/
def ZastSymbolTypeTable.exit_scope (t : ZastSymbolTypeTable) :
    ZastSymbolTypeTable :=
  ⟨t.scopes.dropLast, t.scope_depth - 1⟩

/-! ## Semantic analyzer (`src/sema.rs`).  The `type_map` field of
`ZastSemanticAnalyzer` is constructed but neither read nor written anywhere
in the analysis path, so it is omitted from the state. -/

/-- Outcome of `analyze_stmt`: `ok`/`fail` are `Some(())`/`None` of the
source's `Option<()>`, `panicked` marks a Rust panic
(`todo!`/`unreachable!`/`unwrap`) escaping the call. -/
inductive AnalyzeRes where
  | ok
  | fail
  | panicked
  deriving DecidableEq, Repr

/-- The analyzer state, from `ZastSemanticAnalyzer`. -/
structure ZastSemanticAnalyzer where
  errors : List ZastError
  symbol_type_table : ZastSymbolTypeTable

namespace ZastSemanticAnalyzer

/-- Embeds `ZastSemanticAnalyzer::new`. -/
def new : ZastSemanticAnalyzer := ⟨[], ZastSymbolTypeTable.new⟩

/-- Embeds `ZastSemanticAnalyzer::throw_error`. -/
def throw_error (a : ZastSemanticAnalyzer) (e : ZastError) :
    ZastSemanticAnalyzer :=
  { a with errors := a.errors ++ [e] }

/-- Embeds `ZastSemanticAnalyzer::declare_ident_type_mapping`: declare, reporting a
redeclaration into the collector; the `Option<()>` result. -/
def declare_ident_type_mapping (a : ZastSemanticAnalyzer) (identifier : String)
    (value_type : ValueType) (span : Span) :
    ZastSemanticAnalyzer × Option Unit :=
  match a.symbol_type_table.declare_ident_type identifier value_type span with
  | (table', none) => ({ a with symbol_type_table := table' }, some ())
  | (table', some zast_err) =>
    (({ a with symbol_type_table := table' }).throw_error zast_err, none)

/-- Embeds `ZastSemanticAnalyzer::declare_function_type`. -/
def declare_function_type (a : ZastSemanticAnalyzer) (identifier : String)
    (params : List ValueType) (return_type : ValueType) (span : Span) :
    ZastSemanticAnalyzer × Option Unit :=
  match a.symbol_type_table.declare_function_type identifier params return_type span with
  | (table', none) => ({ a with symbol_type_table := table' }, some ())
  | (table', some zast_err) =>
    (({ a with symbol_type_table := table' }).throw_error zast_err, none)

/-- Embeds `ZastSemanticAnalyzer::enter_scope`. -/
def enter_scope (a : ZastSemanticAnalyzer) : ZastSemanticAnalyzer :=
  { a with symbol_type_table := a.symbol_type_table.enter_scope }

/-- Embeds `ZastSemanticAnalyzer::exit_scope`. -/
def exit_scope (a : ZastSemanticAnalyzer) : ZastSemanticAnalyzer :=
  { a with symbol_type_table := a.symbol_type_table.exit_scope }

end ZastSemanticAnalyzer

/-- The parameter-resolution loop opening the `FunctionDeclaration` arm of
`analyze_stmt`: `params.push(ValueType::from_annotated_type(..))` for each
parameter; a resolver panic (modelled `none`) escapes. -/
def resolveParams : List FunctionParameter → Option (List ValueType)
  | [] => some []
  | prm :: rest =>
    match ValueType.from_annotated_type prm.annotated_type with
    | none => none
    | some vt => (resolveParams rest).map (vt :: ·)

/-- The parameter-declaration loop of the `FunctionDeclaration` arm: each
parameter's annotated type is resolved *again* and declared via
`declare_ident_type_mapping`, whose `Option<()>` result is discarded;
`none` models a resolver panic escaping the loop. -/
def declareParams (a : ZastSemanticAnalyzer) :
    List FunctionParameter → Option ZastSemanticAnalyzer
  | [] => some a
  | prm :: rest =>
    match ValueType.from_annotated_type prm.annotated_type with
    | none => none
    | some vt =>
      declareParams (a.declare_ident_type_mapping prm.name vt prm.span).1 rest

mutual

/-- Embeds `ZastSemanticAnalyzer::analyze_stmt` from `src/sema.rs`.
`FunctionDeclaration`: resolve the parameter and return types, declare the
function in the *current* scope (the `Option<()>` result is discarded),
`enter_scope`, declare the parameters in the new scope, analyze the body —
`self.analyze_stmt(body.as_ref())?` propagates a body failure *before*
`exit_scope` — then `exit_scope`.  `BlockStatement`: analyze the children
in the same scope.  Every other statement kind is the `todo!` arm (a
panic).  The fuel makes the nested recursion structural; an exhausted-fuel
run is reported as `panicked` (a run that did not return), so theorems
conditioned on a non-panicking result never mistake a truncated run for a
real one. -/
def analyzeStmt : Nat → ZastSemanticAnalyzer → Statement →
    ZastSemanticAnalyzer × AnalyzeRes
  | 0, a, _ => (a, .panicked)
  | fuel + 1, a, stmt =>
    match stmt with
    | ⟨.FunctionDeclaration name parameters return_type body, span⟩ =>
      (match resolveParams parameters with
       | none => (a, .panicked)
       | some params =>
         match ValueType.from_return_type return_type with
         | none => (a, .panicked)
         | some ret =>
           let a1 := (a.declare_function_type name params ret span).1
           let a2 := a1.enter_scope
           match declareParams a2 parameters with
           | none => (a2, .panicked)
           | some a3 =>
             match analyzeStmt fuel a3 body with
             | (a4, .ok) => (a4.exit_scope, .ok)
             | (a4, r) => (a4, r))
    | ⟨.BlockStatement statements, _⟩ => analyzeStmts fuel a statements
    | ⟨.Expression _, _⟩ => (a, .panicked)
    | ⟨.VariableDeclaration _ _ _ _, _⟩ => (a, .panicked)

/-- The `for` loop of the `BlockStatement` arm: analyze each child in
order; `self.analyze_stmt(stmt.as_ref())?` stops at the first non-`ok`
child. -/
def analyzeStmts : Nat → ZastSemanticAnalyzer → List Statement →
    ZastSemanticAnalyzer × AnalyzeRes
  | 0, a, _ => (a, .panicked)
  | _ + 1, a, [] => (a, .ok)
  | fuel + 1, a, s :: rest =>
    match analyzeStmt fuel a s with
    | (a', .ok) => analyzeStmts fuel a' rest
    | (a', r) => (a', r)

end

/-- The `for` loop of `ZastSemanticAnalyzer::analyze`: `let _ =
self.analyze_stmt(stmt)` discards `ok`/`fail`, but a panic still escapes
(`none`). -/
def analyzeProgramStmts (fuel : Nat) (a : ZastSemanticAnalyzer) :
    List Statement → Option ZastSemanticAnalyzer
  | [] => some a
  | s :: rest =>
    match analyzeStmt fuel a s with
    | (_, .panicked) => none
    | (a', _) => analyzeProgramStmts fuel a' rest

/-- Embeds `ZastSemanticAnalyzer::analyze`: walk all top-level statements, then
`Err(mem::take(&mut self.errors))` if any diagnostic accumulated, `Ok(())`
otherwise; the outer `none` is a panic escaping `analyze` itself. -/
def analyze (fuel : Nat) (a : ZastSemanticAnalyzer) (program : ZastProgram) :
    Option (Except (List ZastError) Unit × ZastSemanticAnalyzer) :=
  match analyzeProgramStmts fuel a program.body with
  | none => none
  | some a' =>
    if a'.errors.isEmpty then some (.ok (), a')
    else some (.error a'.errors, { a' with errors := [] })

/-! ## Concrete fixtures

Token streams as the lexer's output contract produces them (§6 of the
spec): single-character tokens on line 1 at consecutive columns, literal
payloads on identifier/number tokens, one final `Eof`. -/

/-- The one-character span at column `c` of line 1. -/
def sp (c : Nat) : Span := ⟨c, c, 1, 1⟩

/-- A payload-free token at column `c`. -/
def mkTok (k : TokenKind) (c : Nat) : Token := ⟨.None, "", sp c, k⟩

/-- An integer token at column `c`. -/
def intTok (v : Int) (c : Nat) : Token := ⟨.IntegerValue v, "", sp c, .Integer⟩

/-- An identifier token at column `c`. -/
def idTok (s : String) (c : Nat) : Token := ⟨.Identifier s, s, sp c, .Identifier⟩

/-- Tokens of `1-2-3`. -/
def tokens_1m2m3 : List Token :=
  [intTok 1 1, mkTok .Minus 2, intTok 2 3, mkTok .Minus 4, intTok 3 5,
   mkTok .Eof 6]

/-- Tokens of `1+2*3`. -/
def tokens_1p2t3 : List Token :=
  [intTok 1 1, mkTok .Plus 2, intTok 2 3, mkTok .Multiply 4, intTok 3 5,
   mkTok .Eof 6]

/-- Tokens of `(1+2)*3`. -/
def tokens_grouped : List Token :=
  [mkTok .LeftParenthesis 1, intTok 1 2, mkTok .Plus 3, intTok 2 4,
   mkTok .RightParenthesis 5, mkTok .Multiply 6, intTok 3 7, mkTok .Eof 8]

/-- Tokens of `fn f(): *i32 {}` — a function declaration whose return type
annotation begins with `*`. -/
def tokens_fn_ptr_ret : List Token :=
  [mkTok .Fn 1, idTok "f" 4, mkTok .LeftParenthesis 5,
   mkTok .RightParenthesis 6, mkTok .Colon 7, mkTok .Multiply 9,
   idTok "i32" 10, mkTok .LeftBrace 14, mkTok .RightBrace 15, mkTok .Eof 16]

/-- Tokens of `fn f(a: foo): void {}` — a parameter whose primitive type
name is not one of the resolver's recognized forms. -/
def tokens_fn_foo_param : List Token :=
  [mkTok .Fn 1, idTok "f" 4, mkTok .LeftParenthesis 5, idTok "a" 6,
   mkTok .Colon 7, idTok "foo" 9, mkTok .RightParenthesis 12,
   mkTok .Colon 13, idTok "void" 15, mkTok .LeftBrace 20,
   mkTok .RightBrace 21, mkTok .Eof 22]

/-- The tree of `fn f(a: foo): void {}` that `parse_program` produces. -/
def prog_fn_foo_param : ZastProgram :=
  ⟨[⟨.FunctionDeclaration "f" [⟨"a", .Primitive "foo", sp 6⟩] .Void
      ⟨.BlockStatement [], ⟨20, 21, 1, 1⟩⟩, ⟨1, 21, 1, 1⟩⟩]⟩

/-- The AST of `fn f(a: i32, a: i32): void {}` (two parameters sharing one
name), with the first `a` at column 6 and the second at column 14. -/
def prog_dup_params : ZastProgram :=
  ⟨[⟨.FunctionDeclaration "f"
      [⟨"a", .Primitive "i32", sp 6⟩, ⟨"a", .Primitive "i32", sp 14⟩]
      .Void ⟨.BlockStatement [], ⟨27, 28, 1, 1⟩⟩, ⟨1, 28, 1, 1⟩⟩]⟩

/-- A scope in which `x` is bound to `Bool` declared at column 1. -/
def scope_x_bool : SymbolTypeScope := ⟨[("x", ⟨.Bool, sp 1⟩)], 1⟩

/-! ## Helper lemmas -/

/-- Embeds `HashMap::insert` on a key that is present: the old value is returned
and the stored value is replaced. -/
theorem insertSymbol_found (l : List (String × SymbolType)) (key : String)
    (v old : SymbolType) (h : lookupSymbol l key = some old) :
    (insertSymbol l key v).2 = some old ∧
      lookupSymbol (insertSymbol l key v).1 key = some v := by
  induction l with
  | nil => simp [lookupSymbol] at h
  | cons kv rest ih =>
    obtain ⟨k, w⟩ := kv
    by_cases hk : k = key
    · subst hk
      simp [lookupSymbol, insertSymbol] at h ⊢
      exact h
    · simp [lookupSymbol, hk] at h
      have := ih h
      simp [insertSymbol, hk, lookupSymbol]
      exact this

/-! ## Recovery characterization (claim C8)

`syncStopsAt` renders the claim's stopping rule word for word, to be
compared with the embedded `sync_loop`; `syncConsumed` turns it into the
number of consumed tokens. -/

/-- Claim-side description of the recovery stop: the offset, among the
token kinds from the cursor, of the first `;`, `)` or `}` encountered at
nesting depth 0 — where `(`/`{` increase the depth and `)`/`}` at positive
depth decrease it, and a `;` at positive depth does not stop — or `none`
when end-of-input is reached first. -/
def syncStopsAt : List TokenKind → Nat → Option Nat
  | [], _ => none
  | k :: rest, depth =>
    match k with
    | .LeftParenthesis | .LeftBrace =>
      (syncStopsAt rest (depth + 1)).map (· + 1)
    | .RightParenthesis | .RightBrace =>
      if depth = 0 then some 0 else (syncStopsAt rest (depth - 1)).map (· + 1)
    | .Semicolon =>
      if depth = 0 then some 0 else (syncStopsAt rest depth).map (· + 1)
    | .Eof => none
    | _ => (syncStopsAt rest depth).map (· + 1)

/-- Offset of the first `Eof` in a kind list (the length if there is
none). -/
def firstEofIdx : List TokenKind → Nat
  | [] => 0
  | .Eof :: _ => 0
  | _ :: rest => firstEofIdx rest + 1

/-- How many tokens recovery consumes according to the claim: through the
stopping delimiter when one exists, otherwise up to (not including) the
end of input. -/
def syncConsumed (ks : List TokenKind) (depth : Nat) : Nat :=
  match syncStopsAt ks depth with
  | some i => i + 1
  | none => firstEofIdx ks

/-- The token kinds from the cursor to the end of the stream. -/
def ZastParser.kindsFrom (p : ZastParser) : List TokenKind :=
  (p.tokens.drop p.current_token_ptr).map Token.kind

/-- A kind list that is empty or ends in `Eof` (the suffix view of the
scanner's contract that the stream is terminated by `Eof`). -/
def eofEnded (ks : List TokenKind) : Prop :=
  ks = [] ∨ ks.getLast? = some .Eof

theorem getLast?_cons_ne_nil {α : Type} (a : α) (l : List α) (h : l ≠ []) :
    (a :: l).getLast? = l.getLast? := by
  cases l with
  | nil => exact absurd rfl h
  | cons b t => rfl

theorem getD_of_drop_cons (l : List Token) :
    ∀ (i : Nat) (t : Token) (ts : List Token),
      l.drop i = t :: ts → l.getD i Token.default = t := by
  induction l with
  | nil => intro i t ts h; simp at h
  | cons x xs ih =>
    intro i t ts h
    cases i with
    | zero => simp at h ⊢; exact h.1
    | succ j => simpa using ih j t ts (by simpa using h)

theorem getD_of_drop_nil (l : List Token) :
    ∀ (i : Nat), l.drop i = [] → l.getD i Token.default = Token.default := by
  induction l with
  | nil => intro i _; simp
  | cons x xs ih =>
    intro i h
    cases i with
    | zero => simp at h
    | succ j => simpa using ih j (by simpa using h)

/-- An empty suffix means the sentinel is read: the parser reports EOF. -/
theorem is_at_eof_of_kindsFrom_nil (p : ZastParser)
    (h : p.kindsFrom = []) : p.is_at_eof = true := by
  have hlen : (p.tokens.drop p.current_token_ptr).length = 0 := by
    have := congrArg List.length h
    simpa [ZastParser.kindsFrom] using this
  have hd : p.tokens.drop p.current_token_ptr = [] :=
    List.eq_nil_of_length_eq_zero hlen
  have htok : p.current_token = Token.default := by
    simp only [ZastParser.current_token]
    exact getD_of_drop_nil p.tokens p.current_token_ptr hd
  simp [ZastParser.is_at_eof, ZastParser.current_token_kind, htok,
    Token.default]

/-- A non-empty suffix starts at the current token. -/
theorem current_kind_of_kindsFrom_cons (p : ZastParser) (k : TokenKind)
    (rest : List TokenKind) (h : p.kindsFrom = k :: rest) :
    p.current_token_kind = k := by
  cases hd : p.tokens.drop p.current_token_ptr with
  | nil => rw [ZastParser.kindsFrom, hd] at h; simp at h
  | cons t ts =>
    rw [ZastParser.kindsFrom, hd] at h
    simp at h
    have htok : p.current_token = t := by
      simp only [ZastParser.current_token]
      exact getD_of_drop_cons p.tokens p.current_token_ptr t ts hd
    simp [ZastParser.current_token_kind, htok, h.1]

/-- With at least two tokens remaining, `advance` moves the cursor one
step and the kind suffix loses its head. -/
theorem advance_of_kindsFrom_cons (p : ZastParser) (k : TokenKind)
    (rest : List TokenKind) (h : p.kindsFrom = k :: rest) (hr : rest ≠ []) :
    p.advance = { p with current_token_ptr := p.current_token_ptr + 1 } ∧
    p.advance.kindsFrom = rest := by
  cases hd : p.tokens.drop p.current_token_ptr with
  | nil => rw [ZastParser.kindsFrom, hd] at h; simp at h
  | cons t ts =>
    rw [ZastParser.kindsFrom, hd] at h
    simp at h
    have hts : ts ≠ [] := by
      intro h0; rw [h0] at h; exact hr h.2.symm
    have hlen : (p.tokens.drop p.current_token_ptr).length =
        p.tokens.length - p.current_token_ptr := List.length_drop _ _
    rw [hd] at hlen
    have hts1 : 1 ≤ ts.length := by
      cases ts with
      | nil => exact absurd rfl hts
      | cons _ _ => simp
    have hmove : p.current_token_ptr + 1 < p.tokens.length := by
      simp at hlen; omega
    have hadv : p.advance = { p with current_token_ptr := p.current_token_ptr + 1 } := by
      simp [ZastParser.advance, hmove]
    refine ⟨hadv, ?_⟩
    have hdrop : p.tokens.drop (p.current_token_ptr + 1) = ts := by
      rw [← List.tail_drop, hd]
      rfl
    rw [hadv]
    simp [ZastParser.kindsFrom, hdrop, h.2]

/-- The recovery loop consumes exactly `syncConsumed` tokens: induction
over the remaining kind suffix, one consumed token per iteration. -/
theorem sync_loop_spec : ∀ (ks : List TokenKind) (d : Nat) (p : ZastParser)
    (fuel : Nat), p.kindsFrom = ks → eofEnded ks → ks.length ≤ fuel →
    ZastParser.sync_loop fuel d p =
      { p with current_token_ptr := p.current_token_ptr + syncConsumed ks d } := by
  intro ks
  induction ks with
  | nil =>
    intro d p fuel hk _ _
    have heof := is_at_eof_of_kindsFrom_nil p hk
    have hrhs : ({ p with current_token_ptr :=
        p.current_token_ptr + syncConsumed [] d } : ZastParser) = p := by
      simp [syncConsumed, syncStopsAt, firstEofIdx]
    rw [hrhs]
    cases fuel with
    | zero => rfl
    | succ f => simp [ZastParser.sync_loop, heof]
  | cons k rest ih =>
    intro d p fuel hk hend hfuel
    cases fuel with
    | zero => simp at hfuel
    | succ f =>
      have hcur := current_kind_of_kindsFrom_cons p k rest hk
      by_cases hkeof : k = .Eof
      · subst hkeof
        have heof : p.is_at_eof = true := by
          simp [ZastParser.is_at_eof, hcur]
        have hrhs : ({ p with current_token_ptr :=
            p.current_token_ptr + syncConsumed (TokenKind.Eof :: rest) d } :
              ZastParser) = p := by
          simp [syncConsumed, syncStopsAt, firstEofIdx]
        rw [hrhs]
        simp [ZastParser.sync_loop, heof]
      · have hrest : rest ≠ [] := by
          intro h0
          rw [h0] at hk hend
          rcases hend with h1 | h1
          · simp at h1
          · simp at h1; exact hkeof h1
        have hrend : eofEnded rest := by
          rcases hend with h1 | h1
          · simp at h1
          · right
            rwa [getLast?_cons_ne_nil k rest hrest] at h1
        obtain ⟨hadv, hka⟩ := advance_of_kindsFrom_cons p k rest hk hrest
        have hfr : rest.length ≤ f := by simp at hfuel; omega
        have heq := ih d p.advance f hka hrend hfr
        have heq' := ih (d + 1) p.advance f hka hrend hfr
        have heqm := ih (d - 1) p.advance f hka hrend hfr
        have hne : p.is_at_eof = false := by
          simp [ZastParser.is_at_eof, hcur, hkeof]
        -- one goal per token-kind class
        cases k with
        | LeftParenthesis =>
          rw [show ZastParser.sync_loop (f + 1) d p = ZastParser.sync_loop f (d + 1) p.advance by
            simp [ZastParser.sync_loop, hne, hcur]]
          rw [heq', hadv]
          simp [syncConsumed, syncStopsAt]
          cases hs : syncStopsAt rest (d + 1) with
          | none => simp [hs, firstEofIdx, hkeof]; omega
          | some i => simp [hs]; omega
        | LeftBrace =>
          rw [show ZastParser.sync_loop (f + 1) d p = ZastParser.sync_loop f (d + 1) p.advance by
            simp [ZastParser.sync_loop, hne, hcur]]
          rw [heq', hadv]
          simp [syncConsumed, syncStopsAt]
          cases hs : syncStopsAt rest (d + 1) with
          | none => simp [hs, firstEofIdx, hkeof]; omega
          | some i => simp [hs]; omega
        | RightParenthesis =>
          by_cases hd0 : d = 0
          · subst hd0
            rw [show ZastParser.sync_loop (f + 1) 0 p = p.advance by
              simp [ZastParser.sync_loop, hne, hcur]]
            rw [hadv]
            simp [syncConsumed, syncStopsAt]
          · rw [show ZastParser.sync_loop (f + 1) d p = ZastParser.sync_loop f (d - 1) p.advance by
              simp [ZastParser.sync_loop, hne, hcur, hd0]]
            rw [heqm, hadv]
            simp [syncConsumed, syncStopsAt, hd0]
            cases hs : syncStopsAt rest (d - 1) with
            | none => simp [hs, firstEofIdx, hkeof]; omega
            | some i => simp [hs]; omega
        | RightBrace =>
          by_cases hd0 : d = 0
          · subst hd0
            rw [show ZastParser.sync_loop (f + 1) 0 p = p.advance by
              simp [ZastParser.sync_loop, hne, hcur]]
            rw [hadv]
            simp [syncConsumed, syncStopsAt]
          · rw [show ZastParser.sync_loop (f + 1) d p = ZastParser.sync_loop f (d - 1) p.advance by
              simp [ZastParser.sync_loop, hne, hcur, hd0]]
            rw [heqm, hadv]
            simp [syncConsumed, syncStopsAt, hd0]
            cases hs : syncStopsAt rest (d - 1) with
            | none => simp [hs, firstEofIdx, hkeof]; omega
            | some i => simp [hs]; omega
        | Semicolon =>
          by_cases hd0 : d = 0
          · subst hd0
            rw [show ZastParser.sync_loop (f + 1) 0 p = p.advance by
              simp [ZastParser.sync_loop, hne, hcur]]
            rw [hadv]
            simp [syncConsumed, syncStopsAt]
          · rw [show ZastParser.sync_loop (f + 1) d p = ZastParser.sync_loop f d p.advance by
              simp [ZastParser.sync_loop, hne, hcur, hd0]]
            rw [heq, hadv]
            simp [syncConsumed, syncStopsAt, hd0]
            cases hs : syncStopsAt rest d with
            | none => simp [hs, firstEofIdx, hkeof]; omega
            | some i => simp [hs]; omega
        | Eof => exact absurd rfl hkeof
        | Illegal =>
          rw [show ZastParser.sync_loop (f + 1) d p = ZastParser.sync_loop f d p.advance by
            simp [ZastParser.sync_loop, hne, hcur]]
          rw [heq, hadv]
          simp [syncConsumed, syncStopsAt]
          cases hs : syncStopsAt rest d with
          | none => simp [hs, firstEofIdx, hkeof]; omega
          | some i => simp [hs]; omega
        | String =>
          rw [show ZastParser.sync_loop (f + 1) d p = ZastParser.sync_loop f d p.advance by
            simp [ZastParser.sync_loop, hne, hcur]]
          rw [heq, hadv]
          simp [syncConsumed, syncStopsAt]
          cases hs : syncStopsAt rest d with
          | none => simp [hs, firstEofIdx, hkeof]; omega
          | some i => simp [hs]; omega
        | Identifier =>
          rw [show ZastParser.sync_loop (f + 1) d p = ZastParser.sync_loop f d p.advance by
            simp [ZastParser.sync_loop, hne, hcur]]
          rw [heq, hadv]
          simp [syncConsumed, syncStopsAt]
          cases hs : syncStopsAt rest d with
          | none => simp [hs, firstEofIdx, hkeof]; omega
          | some i => simp [hs]; omega
        | Integer =>
          rw [show ZastParser.sync_loop (f + 1) d p = ZastParser.sync_loop f d p.advance by
            simp [ZastParser.sync_loop, hne, hcur]]
          rw [heq, hadv]
          simp [syncConsumed, syncStopsAt]
          cases hs : syncStopsAt rest d with
          | none => simp [hs, firstEofIdx, hkeof]; omega
          | some i => simp [hs]; omega
        | Float =>
          rw [show ZastParser.sync_loop (f + 1) d p = ZastParser.sync_loop f d p.advance by
            simp [ZastParser.sync_loop, hne, hcur]]
          rw [heq, hadv]
          simp [syncConsumed, syncStopsAt]
          cases hs : syncStopsAt rest d with
          | none => simp [hs, firstEofIdx, hkeof]; omega
          | some i => simp [hs]; omega
        | Comma =>
          rw [show ZastParser.sync_loop (f + 1) d p = ZastParser.sync_loop f d p.advance by
            simp [ZastParser.sync_loop, hne, hcur]]
          rw [heq, hadv]
          simp [syncConsumed, syncStopsAt]
          cases hs : syncStopsAt rest d with
          | none => simp [hs, firstEofIdx, hkeof]; omega
          | some i => simp [hs]; omega
        | Colon =>
          rw [show ZastParser.sync_loop (f + 1) d p = ZastParser.sync_loop f d p.advance by
            simp [ZastParser.sync_loop, hne, hcur]]
          rw [heq, hadv]
          simp [syncConsumed, syncStopsAt]
          cases hs : syncStopsAt rest d with
          | none => simp [hs, firstEofIdx, hkeof]; omega
          | some i => simp [hs]; omega
        | Assignment =>
          rw [show ZastParser.sync_loop (f + 1) d p = ZastParser.sync_loop f d p.advance by
            simp [ZastParser.sync_loop, hne, hcur]]
          rw [heq, hadv]
          simp [syncConsumed, syncStopsAt]
          cases hs : syncStopsAt rest d with
          | none => simp [hs, firstEofIdx, hkeof]; omega
          | some i => simp [hs]; omega
        | Dot =>
          rw [show ZastParser.sync_loop (f + 1) d p = ZastParser.sync_loop f d p.advance by
            simp [ZastParser.sync_loop, hne, hcur]]
          rw [heq, hadv]
          simp [syncConsumed, syncStopsAt]
          cases hs : syncStopsAt rest d with
          | none => simp [hs, firstEofIdx, hkeof]; omega
          | some i => simp [hs]; omega
        | Plus =>
          rw [show ZastParser.sync_loop (f + 1) d p = ZastParser.sync_loop f d p.advance by
            simp [ZastParser.sync_loop, hne, hcur]]
          rw [heq, hadv]
          simp [syncConsumed, syncStopsAt]
          cases hs : syncStopsAt rest d with
          | none => simp [hs, firstEofIdx, hkeof]; omega
          | some i => simp [hs]; omega
        | Minus =>
          rw [show ZastParser.sync_loop (f + 1) d p = ZastParser.sync_loop f d p.advance by
            simp [ZastParser.sync_loop, hne, hcur]]
          rw [heq, hadv]
          simp [syncConsumed, syncStopsAt]
          cases hs : syncStopsAt rest d with
          | none => simp [hs, firstEofIdx, hkeof]; omega
          | some i => simp [hs]; omega
        | Multiply =>
          rw [show ZastParser.sync_loop (f + 1) d p = ZastParser.sync_loop f d p.advance by
            simp [ZastParser.sync_loop, hne, hcur]]
          rw [heq, hadv]
          simp [syncConsumed, syncStopsAt]
          cases hs : syncStopsAt rest d with
          | none => simp [hs, firstEofIdx, hkeof]; omega
          | some i => simp [hs]; omega
        | Divide =>
          rw [show ZastParser.sync_loop (f + 1) d p = ZastParser.sync_loop f d p.advance by
            simp [ZastParser.sync_loop, hne, hcur]]
          rw [heq, hadv]
          simp [syncConsumed, syncStopsAt]
          cases hs : syncStopsAt rest d with
          | none => simp [hs, firstEofIdx, hkeof]; omega
          | some i => simp [hs]; omega
        | Ampersand =>
          rw [show ZastParser.sync_loop (f + 1) d p = ZastParser.sync_loop f d p.advance by
            simp [ZastParser.sync_loop, hne, hcur]]
          rw [heq, hadv]
          simp [syncConsumed, syncStopsAt]
          cases hs : syncStopsAt rest d with
          | none => simp [hs, firstEofIdx, hkeof]; omega
          | some i => simp [hs]; omega
        | Let =>
          rw [show ZastParser.sync_loop (f + 1) d p = ZastParser.sync_loop f d p.advance by
            simp [ZastParser.sync_loop, hne, hcur]]
          rw [heq, hadv]
          simp [syncConsumed, syncStopsAt]
          cases hs : syncStopsAt rest d with
          | none => simp [hs, firstEofIdx, hkeof]; omega
          | some i => simp [hs]; omega
        | Const =>
          rw [show ZastParser.sync_loop (f + 1) d p = ZastParser.sync_loop f d p.advance by
            simp [ZastParser.sync_loop, hne, hcur]]
          rw [heq, hadv]
          simp [syncConsumed, syncStopsAt]
          cases hs : syncStopsAt rest d with
          | none => simp [hs, firstEofIdx, hkeof]; omega
          | some i => simp [hs]; omega
        | Fn =>
          rw [show ZastParser.sync_loop (f + 1) d p = ZastParser.sync_loop f d p.advance by
            simp [ZastParser.sync_loop, hne, hcur]]
          rw [heq, hadv]
          simp [syncConsumed, syncStopsAt]
          cases hs : syncStopsAt rest d with
          | none => simp [hs, firstEofIdx, hkeof]; omega
          | some i => simp [hs]; omega

/-! ## Scope discipline (claim C9) -/

/-- The statement forms of claim C9: function declarations whose bodies
contain only further function declarations or blocks. -/
inductive OnlyFnBlock : Stmt → Prop where
  | fn (name : String) (parameters : List FunctionParameter)
      (return_type : ReturnType) (body : Statement) :
      OnlyFnBlock body.node →
      OnlyFnBlock (.FunctionDeclaration name parameters return_type body)
  | block (statements : List Statement) :
      (∀ s ∈ statements, OnlyFnBlock s.node) →
      OnlyFnBlock (.BlockStatement statements)

mutual

/-- The function names a statement declares at its own scope level (inside
blocks, which share the enclosing scope, but not inside function bodies,
which get their own scope). -/
def topFnNames : Stmt → List String
  | .FunctionDeclaration name _ _ _ => [name]
  | .BlockStatement statements => topFnNamesList statements
  | _ => []

/-- Embeds `topFnNames` over a statement sequence. -/
def topFnNamesList : List Statement → List String
  | [] => []
  | s :: rest => topFnNames s.node ++ topFnNamesList rest

end

/-- The analyzer's stack invariant: `scope_depth` indexes the last scope. -/
def scopesWF (t : ZastSymbolTypeTable) : Prop :=
  t.scope_depth + 1 = t.scopes.length

/-- A name is bound in the current (top-of-stack) scope. -/
def boundInTop (t : ZastSymbolTypeTable) (n : String) : Prop :=
  ((t.scopes.getD t.scope_depth SymbolTypeScope.new).get_ident_type n).isSome

/-- Setting the last element of a list leaves everything but the last. -/
theorem set_last_eq {α : Type} : ∀ (l : List α) (i : Nat) (x : α),
    i + 1 = l.length → l.set i x = l.dropLast ++ [x] := by
  intro l
  induction l with
  | nil => intro i x h; simp at h
  | cons a rest ih =>
    intro i x h
    cases i with
    | zero =>
      have hrest : rest = [] := by
        cases rest with
        | nil => rfl
        | cons b t => simp at h
      subst hrest
      rfl
    | succ j =>
      have hj : j + 1 = rest.length := by simpa using h
      have hrest : rest ≠ [] := by
        intro h0; rw [h0] at hj; simp at hj
      have hdl : (a :: rest).dropLast = a :: rest.dropLast := by
        cases rest with
        | nil => exact absurd rfl hrest
        | cons b t => rfl
      simp [List.set, hdl, ih j x hj]

/-- Embeds `getD` after setting an in-bounds index reads the new value. -/
theorem getD_set_self {α : Type} : ∀ (l : List α) (i : Nat) (x d : α),
    i < l.length → (l.set i x).getD i d = x := by
  intro l
  induction l with
  | nil => intro i x d h; simp at h
  | cons a rest ih =>
    intro i x d h
    cases i with
    | zero => rfl
    | succ j => simpa using ih j x d (by simpa using h)

/-- Lookup through `HashMap::insert`: the inserted key reads the new value,
every other key is untouched. -/
theorem lookupSymbol_insertSymbol : ∀ (l : List (String × SymbolType))
    (qk : String) (v : SymbolType) (n : String),
    lookupSymbol (insertSymbol l qk v).1 n =
      if qk = n then some v else lookupSymbol l n := by
  intro l
  induction l with
  | nil =>
    intro qk v n
    simp [insertSymbol, lookupSymbol]
  | cons kv rest ih =>
    intro qk v n
    obtain ⟨k, w⟩ := kv
    by_cases hk : k = qk
    · subst hk
      simp [insertSymbol, lookupSymbol]
      by_cases hn : k = n <;> simp [hn, lookupSymbol]
    · simp [insertSymbol, hk]
      by_cases hn : k = n
      · subst hn
        have hq : ¬ qk = k := fun h0 => hk h0.symm
        simp [lookupSymbol, hq]
      · simp [lookupSymbol, hn, ih qk v n]

/-- Both scope-level declare operations store through `insertSymbol`. -/
theorem scope_declare_symbols :
    ∀ (sc : SymbolTypeScope) (id : String) (vt : ValueType) (span : Span),
    ((sc.declare_ident_type id vt span).1).symbols =
      (insertSymbol sc.symbols id ⟨vt, span⟩).1 := by
  intro sc id vt span
  simp only [SymbolTypeScope.declare_ident_type]
  rcases h : insertSymbol sc.symbols id ⟨vt, span⟩ with ⟨sy, old⟩
  cases old <;> simp

/-- Embeds `declare_function_type` analogue of `scope_declare_symbols`. -/
theorem scope_declare_fn_symbols :
    ∀ (sc : SymbolTypeScope) (id : String) (ps : List ValueType)
      (rt : ValueType) (span : Span),
    ((sc.declare_function_type id ps rt span).1).symbols =
      (insertSymbol sc.symbols id ⟨.Function ps rt, span⟩).1 := by
  intro sc id ps rt span
  simp only [SymbolTypeScope.declare_function_type]
  rcases h : insertSymbol sc.symbols id ⟨.Function ps rt, span⟩ with ⟨sy, old⟩
  cases old <;> simp

/-- Effect of a table-level declaration on the stack shape: only the top
scope changes, and the only name possibly newly bound there is the
declared one. -/
theorem table_set_top_props (t : ZastSymbolTypeTable) (sc' : SymbolTypeScope)
    (hwf : scopesWF t) :
    scopesWF ⟨t.scopes.set t.scope_depth sc', t.scope_depth⟩ ∧
    (t.scopes.set t.scope_depth sc').length = t.scopes.length ∧
    (t.scopes.set t.scope_depth sc').dropLast = t.scopes.dropLast ∧
    (t.scopes.set t.scope_depth sc').getD t.scope_depth SymbolTypeScope.new
      = sc' := by
  have hwf' : t.scope_depth + 1 = t.scopes.length := hwf
  have hset := set_last_eq t.scopes t.scope_depth sc' hwf'
  refine ⟨?_, List.length_set t.scopes _ _, ?_, ?_⟩
  · show t.scope_depth + 1 = (t.scopes.set t.scope_depth sc').length
    rw [List.length_set]
    exact hwf'
  · rw [hset, List.dropLast_concat]
  · exact getD_set_self t.scopes t.scope_depth sc' _ (by omega)

/-- The analyzer-level ident declaration keeps the stack shape (it writes
only into the top scope). -/
theorem declare_ident_mapping_props (a : ZastSemanticAnalyzer) (id : String)
    (vt : ValueType) (span : Span) (hwf : scopesWF a.symbol_type_table) :
    scopesWF ((a.declare_ident_type_mapping id vt span).1).symbol_type_table ∧
    ((a.declare_ident_type_mapping id vt span).1).symbol_type_table.scope_depth
      = a.symbol_type_table.scope_depth ∧
    ((a.declare_ident_type_mapping id vt span).1).symbol_type_table.scopes.length
      = a.symbol_type_table.scopes.length ∧
    ((a.declare_ident_type_mapping id vt span).1).symbol_type_table.scopes.dropLast
      = a.symbol_type_table.scopes.dropLast := by
  have htab : ((a.declare_ident_type_mapping id vt span).1).symbol_type_table =
      (a.symbol_type_table.declare_ident_type id vt span).1 := by
    simp only [ZastSemanticAnalyzer.declare_ident_type_mapping]
    rcases h : a.symbol_type_table.declare_ident_type id vt span with ⟨t', err⟩
    cases err <;> simp [ZastSemanticAnalyzer.throw_error]
  have htab2 : (a.symbol_type_table.declare_ident_type id vt span).1 =
      ⟨a.symbol_type_table.scopes.set a.symbol_type_table.scope_depth
        ((a.symbol_type_table.scopes.getD a.symbol_type_table.scope_depth
          SymbolTypeScope.new).declare_ident_type id vt span).1,
       a.symbol_type_table.scope_depth⟩ := by
    simp only [ZastSymbolTypeTable.declare_ident_type]
  obtain ⟨h1, h2, h3, _⟩ := table_set_top_props a.symbol_type_table
    ((a.symbol_type_table.scopes.getD a.symbol_type_table.scope_depth
      SymbolTypeScope.new).declare_ident_type id vt span).1 hwf
  rw [htab, htab2]
  exact ⟨h1, rfl, h2, h3⟩

/-- The analyzer-level function declaration keeps the stack shape and adds
at most the declared name to the top scope. -/
theorem declare_function_props (a : ZastSemanticAnalyzer) (id : String)
    (ps : List ValueType) (rt : ValueType) (span : Span)
    (hwf : scopesWF a.symbol_type_table) :
    scopesWF ((a.declare_function_type id ps rt span).1).symbol_type_table ∧
    ((a.declare_function_type id ps rt span).1).symbol_type_table.scope_depth
      = a.symbol_type_table.scope_depth ∧
    ((a.declare_function_type id ps rt span).1).symbol_type_table.scopes.length
      = a.symbol_type_table.scopes.length ∧
    ((a.declare_function_type id ps rt span).1).symbol_type_table.scopes.dropLast
      = a.symbol_type_table.scopes.dropLast ∧
    ∀ n, boundInTop ((a.declare_function_type id ps rt span).1).symbol_type_table n →
      boundInTop a.symbol_type_table n ∨ n = id := by
  have htab : ((a.declare_function_type id ps rt span).1).symbol_type_table =
      (a.symbol_type_table.declare_function_type id ps rt span).1 := by
    simp only [ZastSemanticAnalyzer.declare_function_type]
    rcases h : a.symbol_type_table.declare_function_type id ps rt span with ⟨t', err⟩
    cases err <;> simp [ZastSemanticAnalyzer.throw_error]
  have htab2 : (a.symbol_type_table.declare_function_type id ps rt span).1 =
      ⟨a.symbol_type_table.scopes.set a.symbol_type_table.scope_depth
        ((a.symbol_type_table.scopes.getD a.symbol_type_table.scope_depth
          SymbolTypeScope.new).declare_function_type id ps rt span).1,
       a.symbol_type_table.scope_depth⟩ := by
    simp only [ZastSymbolTypeTable.declare_function_type]
  obtain ⟨h1, h2, h3, h4⟩ := table_set_top_props a.symbol_type_table
    ((a.symbol_type_table.scopes.getD a.symbol_type_table.scope_depth
      SymbolTypeScope.new).declare_function_type id ps rt span).1 hwf
  rw [htab, htab2]
  refine ⟨h1, rfl, h2, h3, ?_⟩
  intro n hb
  simp only [boundInTop] at hb ⊢
  rw [h4] at hb
  rw [SymbolTypeScope.get_ident_type, scope_declare_fn_symbols,
    lookupSymbol_insertSymbol] at hb
  by_cases hn : id = n
  · right; exact hn.symm
  · left
    rw [if_neg hn] at hb
    exact hb

/-- Embeds `declareParams` writes only into the top scope: the stack shape is
preserved. -/
theorem declareParams_props : ∀ (params : List FunctionParameter)
    (a a' : ZastSemanticAnalyzer), declareParams a params = some a' →
    scopesWF a.symbol_type_table →
    scopesWF a'.symbol_type_table ∧
    a'.symbol_type_table.scope_depth = a.symbol_type_table.scope_depth ∧
    a'.symbol_type_table.scopes.length = a.symbol_type_table.scopes.length ∧
    a'.symbol_type_table.scopes.dropLast = a.symbol_type_table.scopes.dropLast := by
  intro params
  induction params with
  | nil =>
    intro a a' h hwf
    simp [declareParams] at h
    subst h
    exact ⟨hwf, rfl, rfl, rfl⟩
  | cons prm rest ih =>
    intro a a' h hwf
    simp only [declareParams] at h
    cases hvt : ValueType.from_annotated_type prm.annotated_type with
    | none => rw [hvt] at h; simp at h
    | some vt =>
      rw [hvt] at h
      simp only [] at h
      obtain ⟨g1, g2, g3, g4⟩ := declare_ident_mapping_props a prm.name vt prm.span hwf
      obtain ⟨k1, k2, k3, k4⟩ := ih _ a' h g1
      exact ⟨k1, by rw [k2, g2], by rw [k3, g3], by rw [k4, g4]⟩

/-- The conclusions of the C9 induction, shared between the statement and
statement-list forms: the run succeeds, the scope stack regains its exact
depth, every scope below the top is untouched, and the only names newly
bound in the top scope are the function names the statement declares at
its own level. -/
def scopeDiscipline (a a' : ZastSemanticAnalyzer) (names : List String) : Prop :=
  scopesWF a'.symbol_type_table ∧
  a'.symbol_type_table.scope_depth = a.symbol_type_table.scope_depth ∧
  a'.symbol_type_table.scopes.length = a.symbol_type_table.scopes.length ∧
  a'.symbol_type_table.scopes.dropLast = a.symbol_type_table.scopes.dropLast ∧
  ∀ n, boundInTop a'.symbol_type_table n →
    boundInTop a.symbol_type_table n ∨ n ∈ names

/-- The C9 induction over the restricted statement forms: a non-panicking
`analyze_stmt` run returns `ok` and observes the scope discipline. -/
theorem analyzeStmt_scopes (st : Stmt) (h : OnlyFnBlock st) :
    ∀ (spn : Span) (fuel : Nat) (a a' : ZastSemanticAnalyzer) (r : AnalyzeRes),
    scopesWF a.symbol_type_table →
    analyzeStmt fuel a ⟨st, spn⟩ = (a', r) → r ≠ .panicked →
    r = .ok ∧ scopeDiscipline a a' (topFnNames st) := by
  induction h with
  | fn name parameters return_type body hbody ih =>
    intro spn fuel a a' r hwf hrun hr
    cases fuel with
    | zero =>
      simp only [analyzeStmt] at hrun
      cases hrun
      exact absurd rfl hr
    | succ f =>
      simp only [analyzeStmt] at hrun
      cases hrp : resolveParams parameters with
      | none =>
        rw [hrp] at hrun
        simp only [] at hrun
        cases hrun
        exact absurd rfl hr
      | some ps =>
        rw [hrp] at hrun
        simp only [] at hrun
        cases hrt : ValueType.from_return_type return_type with
        | none =>
          rw [hrt] at hrun
          simp only [] at hrun
          cases hrun
          exact absurd rfl hr
        | some rt =>
          rw [hrt] at hrun
          simp only [] at hrun
          obtain ⟨f1, f2, f3, f4, f5⟩ :=
            declare_function_props a name ps rt spn hwf
          set a1 := (a.declare_function_type name ps rt spn).1 with ha1
          have hwf2 : scopesWF a1.enter_scope.symbol_type_table := by
            have hf1 : a1.symbol_type_table.scope_depth + 1 =
                a1.symbol_type_table.scopes.length := f1
            show a1.enter_scope.symbol_type_table.scope_depth + 1 =
              a1.enter_scope.symbol_type_table.scopes.length
            simp [ZastSemanticAnalyzer.enter_scope,
              ZastSymbolTypeTable.enter_scope]
            omega
          cases hdp : declareParams a1.enter_scope parameters with
          | none =>
            rw [hdp] at hrun
            simp only [] at hrun
            cases hrun
            exact absurd rfl hr
          | some a3 =>
            rw [hdp] at hrun
            simp only [] at hrun
            obtain ⟨p1, p2, p3, p4⟩ := declareParams_props parameters _ a3 hdp hwf2
            cases hb : analyzeStmt f a3 body with
            | mk a4 rb =>
              rw [hb] at hrun
              cases rb with
              | panicked =>
                simp only [] at hrun
                cases hrun
                exact absurd rfl hr
              | fail =>
                obtain ⟨hok, _⟩ := ih body.span f a3 a4 .fail p1 hb
                  (by intro h0; cases h0)
                cases hok
              | ok =>
                obtain ⟨_, q1, q2, q3, q4, _⟩ := ih body.span f a3 a4 .ok p1 hb
                  (by intro h0; cases h0)
                simp only [] at hrun
                cases hrun
                have hq1 : a4.symbol_type_table.scope_depth + 1 =
                    a4.symbol_type_table.scopes.length := q1
                have hp2 : a3.symbol_type_table.scope_depth =
                    a1.symbol_type_table.scope_depth + 1 := by
                  rw [p2]
                  simp [ZastSemanticAnalyzer.enter_scope,
                    ZastSymbolTypeTable.enter_scope]
                have hp3 : a3.symbol_type_table.scopes.length =
                    a1.symbol_type_table.scopes.length + 1 := by
                  rw [p3]
                  simp [ZastSemanticAnalyzer.enter_scope,
                    ZastSymbolTypeTable.enter_scope]
                have hf1 : a1.symbol_type_table.scope_depth + 1 =
                    a1.symbol_type_table.scopes.length := f1
                have hscopes4 : a4.symbol_type_table.scopes.dropLast =
                    a1.symbol_type_table.scopes := by
                  rw [q4, p4]
                  simp [ZastSemanticAnalyzer.enter_scope,
                    ZastSymbolTypeTable.enter_scope, List.dropLast_concat]
                have hdep4 : a4.symbol_type_table.scope_depth - 1 =
                    a1.symbol_type_table.scope_depth := by
                  rw [q2, hp2]
                  omega
                have hexlen : a4.exit_scope.symbol_type_table.scopes.length =
                    a1.symbol_type_table.scopes.length := by
                  show a4.symbol_type_table.scopes.dropLast.length = _
                  rw [hscopes4]
                refine ⟨rfl, ?_, ?_, ?_, ?_, ?_⟩
                · show a4.exit_scope.symbol_type_table.scope_depth + 1 =
                    a4.exit_scope.symbol_type_table.scopes.length
                  show a4.symbol_type_table.scope_depth - 1 + 1 =
                    a4.symbol_type_table.scopes.dropLast.length
                  rw [hscopes4, hdep4]
                  exact hf1
                · show a4.symbol_type_table.scope_depth - 1 =
                    a.symbol_type_table.scope_depth
                  rw [hdep4, f2]
                · show a4.symbol_type_table.scopes.dropLast.length =
                    a.symbol_type_table.scopes.length
                  rw [hscopes4, f3]
                · show a4.symbol_type_table.scopes.dropLast.dropLast =
                    a.symbol_type_table.scopes.dropLast
                  rw [hscopes4, f4]
                · intro n hbn
                  have hexit : boundInTop a1.symbol_type_table n := by
                    simp only [boundInTop, ZastSemanticAnalyzer.exit_scope,
                      ZastSymbolTypeTable.exit_scope] at hbn
                    rw [hscopes4, hdep4] at hbn
                    exact hbn
                  rcases f5 n hexit with h1 | h1
                  · exact Or.inl h1
                  · right
                    simp [topFnNames, h1]
  | block statements hmem ih =>
    intro spn fuel a a' r hwf hrun hr
    cases fuel with
    | zero =>
      simp only [analyzeStmt] at hrun
      cases hrun
      exact absurd rfl hr
    | succ f =>
      simp only [analyzeStmt] at hrun
      have hlist : ∀ (ss : List Statement),
          (∀ s (hs : s ∈ ss), ∀ (spn : Span) (fuel : Nat)
            (a a' : ZastSemanticAnalyzer) (r : AnalyzeRes),
            scopesWF a.symbol_type_table →
            analyzeStmt fuel a ⟨s.node, spn⟩ = (a', r) → r ≠ .panicked →
            r = .ok ∧ scopeDiscipline a a' (topFnNames s.node)) →
          ∀ (fuel : Nat) (a a' : ZastSemanticAnalyzer) (r : AnalyzeRes),
          scopesWF a.symbol_type_table →
          analyzeStmts fuel a ss = (a', r) → r ≠ .panicked →
          r = .ok ∧ scopeDiscipline a a' (topFnNamesList ss) := by
        intro ss
        induction ss with
        | nil =>
          intro _ fuel a a' r hwf hrun hr
          cases fuel with
          | zero =>
            simp only [analyzeStmts] at hrun
            cases hrun
            exact absurd rfl hr
          | succ g =>
            simp only [analyzeStmts] at hrun
            cases hrun
            exact ⟨rfl, hwf, rfl, rfl, rfl, fun n hn => Or.inl hn⟩
        | cons s rest ihs =>
          intro hihs fuel a a' r hwf hrun hr
          cases fuel with
          | zero =>
            simp only [analyzeStmts] at hrun
            cases hrun
            exact absurd rfl hr
          | succ g =>
            simp only [analyzeStmts] at hrun
            cases hs1 : analyzeStmt g a s with
            | mk a1 r1 =>
              rw [hs1] at hrun
              cases r1 with
              | panicked =>
                simp only [] at hrun
                cases hrun
                exact absurd rfl hr
              | fail =>
                obtain ⟨hok, _⟩ := hihs s (by simp) s.span g a a1 .fail hwf
                  hs1 (by intro h0; cases h0)
                cases hok
              | ok =>
                obtain ⟨_, g1, g2, g3, g4, g5⟩ := hihs s (by simp) s.span g
                  a a1 .ok hwf hs1 (by intro h0; cases h0)
                simp only [] at hrun
                obtain ⟨kok, k1, k2, k3, k4, k5⟩ := ihs
                  (fun t ht => hihs t (by simp [ht])) g a1 a' r g1 hrun hr
                refine ⟨kok, k1, by rw [k2, g2], by rw [k3, g3],
                  by rw [k4, g4], ?_⟩
                intro n hn
                rcases k5 n hn with h1 | h1
                · rcases g5 n h1 with h2 | h2
                  · exact Or.inl h2
                  · right; simp [topFnNamesList, h2]
                · right; simp [topFnNamesList, h1]
      have := hlist statements ih f a a' r hwf hrun hr
      simpa [topFnNames] using this

/-- The top-level analysis loop observes the same scope discipline: every
statement is one of the restricted forms, so each inner run returns `ok`
and the invariants compose. -/
theorem analyzeProgramStmts_props : ∀ (ss : List Statement) (fuel : Nat)
    (a a' : ZastSemanticAnalyzer), (∀ s ∈ ss, OnlyFnBlock s.node) →
    scopesWF a.symbol_type_table →
    analyzeProgramStmts fuel a ss = some a' →
    scopesWF a'.symbol_type_table ∧
    a'.symbol_type_table.scope_depth = a.symbol_type_table.scope_depth ∧
    a'.symbol_type_table.scopes.length = a.symbol_type_table.scopes.length ∧
    a'.symbol_type_table.scopes.dropLast = a.symbol_type_table.scopes.dropLast ∧
    ∀ n, boundInTop a'.symbol_type_table n →
      boundInTop a.symbol_type_table n ∨ n ∈ topFnNamesList ss := by
  intro ss
  induction ss with
  | nil =>
    intro fuel a a' _ hwf h
    simp only [analyzeProgramStmts] at h
    cases h
    exact ⟨hwf, rfl, rfl, rfl, fun n hn => Or.inl hn⟩
  | cons s rest ih =>
    intro fuel a a' hm hwf h
    simp only [analyzeProgramStmts] at h
    cases hs1 : analyzeStmt fuel a s with
    | mk a1 r1 =>
      rw [hs1] at h
      cases r1 with
      | panicked =>
        simp only [] at h
        cases h
      | fail =>
        obtain ⟨hok, _⟩ := analyzeStmt_scopes s.node (hm s (by simp)) s.span
          fuel a a1 .fail hwf hs1 (by intro h0; cases h0)
        cases hok
      | ok =>
        obtain ⟨_, g1, g2, g3, g4, g5⟩ := analyzeStmt_scopes s.node
          (hm s (by simp)) s.span fuel a a1 .ok hwf hs1 (by intro h0; cases h0)
        simp only [] at h
        obtain ⟨k1, k2, k3, k4, k5⟩ := ih fuel a1 a'
          (fun t ht => hm t (by simp [ht])) g1 h
        refine ⟨k1, by rw [k2, g2], by rw [k3, g3], by rw [k4, g4], ?_⟩
        intro n hn
        rcases k5 n hn with h1 | h1
        · rcases g5 n h1 with h2 | h2
          · exact Or.inl h2
          · right; simp [topFnNamesList, h2]
        · right; simp [topFnNamesList, h1]

/-! ## Claims -/

/-- Claim C1. The spec says a token kind without a precedence-table entry has
effective precedence 0, terminating the Pratt loop safely.  In the shipped
`Precedence::get_precedence` the no-entry arm is `todo!(...)` — a panic —
and its `-> Self` signature contradicts both call sites, which consume the
result as an `Option` (`.map(..).unwrap_or(0)` in
`current_token_precedence`, whose own doc promises "Returns 0 if the
current token has no registered precedence").  This theorem evaluates the
embedded lookup: for the claim's example kinds the no-entry arm is taken
(in the source, the panic), the only bound kinds being `+ - * / (`; under
the call sites' documented `unwrap_or(0)` semantics (the embedding) the
statement `1;` then parses to completion instead of panicking at the `;`. -/
theorem claim_C1 :
    Precedence.get_precedence? .Semicolon = none ∧
    Precedence.get_precedence? .RightBrace = none ∧
    Precedence.get_precedence? .Identifier = none ∧
    Precedence.get_precedence? .Eof = none ∧
    (∀ k, (Precedence.get_precedence? k).isSome →
      k = .Plus ∨ k = .Minus ∨ k = .Multiply ∨ k = .Divide ∨
        k = .LeftParenthesis) ∧
    (ZastParser.parse_program 100
        (ZastParser.new [intTok 1 1, mkTok .Semicolon 2, mkTok .Eof 3])).1 =
      .ok ⟨[⟨.Expression ⟨.IntegerLiteral 1, sp 1⟩, sp 1⟩]⟩ :=
  ⟨rfl, rfl, rfl, rfl,
   by intro k h; cases k <;> simp_all [Precedence.get_precedence?], rfl⟩

/-- Claim C2, counterexample. Redeclaring `x` in a scope where `x ↦ (Bool,
col 1)` returns the `VariableRedeclaration` error, but the scope's state is
*not* unchanged: a later lookup yields the new symbol's type (`Void`) and
span (col 9), not the original's. -/
theorem claim_C2_counterexample :
    (scope_x_bool.declare_ident_type "x" .Void (sp 9)).2 =
      some (.VariableRedeclaration (sp 9) "x" (sp 1)) ∧
    (scope_x_bool.declare_ident_type "x" .Void (sp 9)).1.get_ident_type "x" =
      some ⟨.Void, sp 9⟩ ∧
    (SymbolType.mk .Void (sp 9)).span ≠ (SymbolType.mk .Bool (sp 1)).span :=
  ⟨rfl, rfl, by intro h; simp [sp] at h⟩

/-- Claim C2, amended. For every scope and name already bound in it,
`declare_ident_type` and `declare_function_type` return the respective
redeclaration error citing the original binding's span, and leave
`symbol_count` unchanged — but the new binding *replaces* the existing one
(`HashMap::insert` runs before the error is returned), so a later lookup
yields the new symbol's type and span. -/
theorem claim_C2 (sc : SymbolTypeScope) (name : String) (orig : SymbolType)
    (h : sc.get_ident_type name = some orig) (vt : ValueType)
    (params : List ValueType) (ret : ValueType) (span : Span) :
    (sc.declare_ident_type name vt span).2 =
      some (.VariableRedeclaration span name orig.span) ∧
    (sc.declare_ident_type name vt span).1.get_ident_type name =
      some ⟨vt, span⟩ ∧
    (sc.declare_ident_type name vt span).1.symbol_count = sc.symbol_count ∧
    (sc.declare_function_type name params ret span).2 =
      some (.FunctionRedeclaration span name orig.span) ∧
    (sc.declare_function_type name params ret span).1.get_ident_type name =
      some ⟨.Function params ret, span⟩ ∧
    (sc.declare_function_type name params ret span).1.symbol_count =
      sc.symbol_count := by
  have hi := insertSymbol_found sc.symbols name ⟨vt, span⟩ orig h
  have hf := insertSymbol_found sc.symbols name ⟨.Function params ret, span⟩ orig h
  constructor
  · simp only [SymbolTypeScope.declare_ident_type]
    rcases he : insertSymbol sc.symbols name ⟨vt, span⟩ with ⟨syms', old⟩
    rw [he] at hi
    cases old with
    | none => simp at hi
    | some o => simp at hi ⊢; rw [hi.1.symm]
  constructor
  · simp only [SymbolTypeScope.declare_ident_type]
    rcases he : insertSymbol sc.symbols name ⟨vt, span⟩ with ⟨syms', old⟩
    rw [he] at hi
    cases old with
    | none => simp at hi
    | some o => simpa [SymbolTypeScope.get_ident_type] using hi.2
  constructor
  · simp only [SymbolTypeScope.declare_ident_type]
    rcases he : insertSymbol sc.symbols name ⟨vt, span⟩ with ⟨syms', old⟩
    rw [he] at hi
    cases old with
    | none => simp at hi
    | some o => simp
  constructor
  · simp only [SymbolTypeScope.declare_function_type]
    rcases he : insertSymbol sc.symbols name ⟨.Function params ret, span⟩ with ⟨syms', old⟩
    rw [he] at hf
    cases old with
    | none => simp at hf
    | some o => simp at hf ⊢; rw [hf.1.symm]
  constructor
  · simp only [SymbolTypeScope.declare_function_type]
    rcases he : insertSymbol sc.symbols name ⟨.Function params ret, span⟩ with ⟨syms', old⟩
    rw [he] at hf
    cases old with
    | none => simp at hf
    | some o => simpa [SymbolTypeScope.get_ident_type] using hf.2
  · simp only [SymbolTypeScope.declare_function_type]
    rcases he : insertSymbol sc.symbols name ⟨.Function params ret, span⟩ with ⟨syms', old⟩
    rw [he] at hf
    cases old with
    | none => simp at hf
    | some o => simp

/-- Claim C2, witness. The amended theorem applied to the concrete scope
`{x ↦ (Bool, col 1)}`. -/
theorem claim_C2_witness :
    (scope_x_bool.declare_ident_type "x" .Void (sp 9)).2 =
      some (.VariableRedeclaration (sp 9) "x" (sp 1)) ∧
    (scope_x_bool.declare_ident_type "x" .Void (sp 9)).1.get_ident_type "x" =
      some ⟨.Void, sp 9⟩ ∧
    (scope_x_bool.declare_ident_type "x" .Void (sp 9)).1.symbol_count =
      scope_x_bool.symbol_count ∧
    (scope_x_bool.declare_function_type "x" [] .Void (sp 9)).2 =
      some (.FunctionRedeclaration (sp 9) "x" (sp 1)) ∧
    (scope_x_bool.declare_function_type "x" [] .Void (sp 9)).1.get_ident_type "x" =
      some ⟨.Function [] .Void, sp 9⟩ ∧
    (scope_x_bool.declare_function_type "x" [] .Void (sp 9)).1.symbol_count =
      scope_x_bool.symbol_count :=
  claim_C2 scope_x_bool "x" ⟨.Bool, sp 1⟩ rfl .Void [] .Void (sp 9)

/-- Claim C3. On `fn f(): *i32 {}` the return-type annotation begins with
`*`, so `try_parse_return_type`'s opening
`self.current_token().literal.get_identifier()?` returns `None` without
recording any diagnostic; the statement is abandoned, recovery skips to
end of input, and `parse_program` returns `Ok` with an *empty* body and an
empty error collector — the function declaration is silently dropped,
contradicting the claim that every abandoned statement leaves a diagnostic
and forces `Err`. -/
theorem claim_C3 :
    (ZastParser.parse_program 1000 (ZastParser.new tokens_fn_ptr_ret)).1 =
      .ok ⟨[]⟩ ∧
    (ZastParser.parse_program 1000 (ZastParser.new tokens_fn_ptr_ret)).2.errors
      = [] :=
  ⟨rfl, rfl⟩

/-- Claim C4. `parse_primitive_type` accepts *any* identifier as a primitive
type name: `fn f(a: foo): void {}` parses successfully with
`AnnotatedType::Primitive("foo")` in the tree, yet `foo` satisfies none of
the resolver's recognized forms, so `ValueType::from_annotated_type`
reaches its `unreachable!()` arm (modelled `none`) and analyzing the
parser-produced program panics — the invariant-violation branch is
reachable from parser output, contradicting the claim. -/
theorem claim_C4 :
    (ZastParser.parse_program 1000 (ZastParser.new tokens_fn_foo_param)).1 =
      .ok prog_fn_foo_param ∧
    AnnotatedType.is_int (.Primitive "foo") = false ∧
    AnnotatedType.is_unsigned (.Primitive "foo") = false ∧
    AnnotatedType.is_float (.Primitive "foo") = false ∧
    AnnotatedType.is_bool (.Primitive "foo") = false ∧
    AnnotatedType.hits_unreachable (.Primitive "foo") = true ∧
    ValueType.from_annotated_type (.Primitive "foo") = none ∧
    analyze 1000 ZastSemanticAnalyzer.new prog_fn_foo_param = none :=
  ⟨rfl, rfl, rfl, rfl, rfl, rfl, rfl, rfl⟩

/-- Claim C5, counterexample. `(1+2)*3` parses to the expected shape, but
the outer `BinaryExpression`'s span starts at column 2 — the inner group's
first operand — while the expression's text (the opening parenthesis)
starts at column 1: the span does **not** cover the full text. -/
theorem claim_C5_counterexample :
    ((ZastParser.try_parse_expr 100 (ZastParser.new tokens_grouped)
        .Default).1.map fun e => e.span) = some ⟨2, 7, 1, 1⟩ ∧
    (tokens_grouped.getD 0 Token.default).span.col_start = 1 ∧
    (2 : Nat) ≠ 1 :=
  ⟨rfl, rfl, by decide⟩

/-- Claim C5, amended. `(1+2)*3` parses as
`BinaryExpression(BinaryExpression(1,+,2), *, 3)` with no tree node for the
parentheses, but the outer span begins at the inner group's first operand
(the grouping replaces its span by the inner expression's span), so the
opening parenthesis is not covered: the result span is columns 2–7. -/
theorem claim_C5 :
    (ZastParser.try_parse_expr 100 (ZastParser.new tokens_grouped)
        .Default).1 =
      some ⟨.BinaryExpression
              ⟨.BinaryExpression ⟨.IntegerLiteral 1, sp 2⟩ .Plus
                 ⟨.IntegerLiteral 2, sp 4⟩, ⟨2, 4, 1, 1⟩⟩
              .Multiply ⟨.IntegerLiteral 3, sp 7⟩, ⟨2, 7, 1, 1⟩⟩ ∧
    (ZastParser.try_parse_expr 100 (ZastParser.new tokens_grouped)
        .Default).2.errors = [] :=
  ⟨rfl, rfl⟩

/-- Claim C6. Same-precedence operators associate to the left and
higher-precedence operators bind tighter on the right: `1-2-3` parses as
`(1-2)-3` and `1+2*3` parses as `1+(2*3)`. -/
theorem claim_C6 :
    (ZastParser.try_parse_expr 100 (ZastParser.new tokens_1m2m3)
        .Default).1 =
      some ⟨.BinaryExpression
              ⟨.BinaryExpression ⟨.IntegerLiteral 1, sp 1⟩ .Minus
                 ⟨.IntegerLiteral 2, sp 3⟩, ⟨1, 3, 1, 1⟩⟩
              .Minus ⟨.IntegerLiteral 3, sp 5⟩, ⟨1, 5, 1, 1⟩⟩ ∧
    (ZastParser.try_parse_expr 100 (ZastParser.new tokens_1p2t3)
        .Default).1 =
      some ⟨.BinaryExpression ⟨.IntegerLiteral 1, sp 1⟩ .Plus
              ⟨.BinaryExpression ⟨.IntegerLiteral 2, sp 3⟩ .Multiply
                 ⟨.IntegerLiteral 3, sp 5⟩, ⟨3, 5, 1, 1⟩⟩, ⟨1, 5, 1, 1⟩⟩ :=
  ⟨rfl, rfl⟩

/-- Claim C7. Analyzing `fn f(a: i32, a: i32): void {}` yields exactly one
diagnostic: a `VariableRedeclaration` whose `original_span` is the first
`a`'s span (column 6) and whose `span` is the second occurrence's
(column 14). -/
theorem claim_C7 :
    (analyze 1000 ZastSemanticAnalyzer.new prog_dup_params).map Prod.fst =
      some (.error [.VariableRedeclaration (sp 14) "a" (sp 6)]) :=
  rfl

/-- A non-empty suffix of a list ends where the list ends. -/
theorem getLast?_drop_ne_nil : ∀ (l : List Token) (i : Nat),
    l.drop i ≠ [] → (l.drop i).getLast? = l.getLast? := by
  intro l
  induction l with
  | nil => intro i h; simp at h
  | cons x xs ih =>
    intro i h
    cases i with
    | zero => rfl
    | succ j =>
      have hd : (x :: xs).drop (j + 1) = xs.drop j := by simp
      rw [hd] at h ⊢
      have hxs : xs ≠ [] := by
        intro h0; rw [h0] at h; simp at h
      rw [ih j h, getLast?_cons_ne_nil x xs hxs]

/-- The scanner contract transfers to the cursor suffix: the kind list from
any cursor position is empty or ends in `Eof`. -/
theorem eofEnded_kindsFrom (p : ZastParser) (hne : p.tokens ≠ [])
    (heof : (p.tokens.getLast hne).kind = .Eof) : eofEnded p.kindsFrom := by
  cases hd : p.tokens.drop p.current_token_ptr with
  | nil => left; simp [ZastParser.kindsFrom, hd]
  | cons t ts =>
    right
    have hdn : p.tokens.drop p.current_token_ptr ≠ [] := by
      rw [hd]; simp
    have h1 : (p.tokens.drop p.current_token_ptr).getLast? =
        p.tokens.getLast? := getLast?_drop_ne_nil p.tokens p.current_token_ptr hdn
    have h2 : p.tokens.getLast? = some (p.tokens.getLast hne) :=
      List.getLast?_eq_getLast p.tokens hne
    show ((p.tokens.drop p.current_token_ptr).map Token.kind).getLast? =
      some TokenKind.Eof
    rw [List.getLast?_map, h1, h2]
    simp [heof]

/-- Claim C8. For every Eof-terminated token stream and cursor position, the
recovery loop terminates — any fuel of at least the number of remaining
tokens yields the same final state, each iteration consuming one token —
and the cursor ends exactly past the first `;`, `)` or `}` encountered at
nesting depth 0 (per `syncStopsAt`, the claim's depth rule: `(`/`{`
increase depth, `)`/`}` at positive depth decrease it, a `;` at positive
depth is consumed without stopping), or at the first `Eof` when no such
delimiter precedes it (`syncConsumed` folds the two cases); `sync_tokens`,
the entry point used by `parse_program`, computes the same state. -/
theorem claim_C8 (p : ZastParser) (fuel : Nat)
    (hne : p.tokens ≠ [])
    (heof : (p.tokens.getLast hne).kind = .Eof)
    (hfuel : p.tokens.length - p.current_token_ptr ≤ fuel) :
    ZastParser.sync_loop fuel 0 p =
      { p with current_token_ptr :=
          p.current_token_ptr + syncConsumed p.kindsFrom 0 } ∧
    p.sync_tokens =
      { p with current_token_ptr :=
          p.current_token_ptr + syncConsumed p.kindsFrom 0 } := by
  have hlen : p.kindsFrom.length = p.tokens.length - p.current_token_ptr := by
    simp [ZastParser.kindsFrom]
  have hend := eofEnded_kindsFrom p hne heof
  constructor
  · exact sync_loop_spec p.kindsFrom 0 p fuel rfl hend (by omega)
  · exact sync_loop_spec p.kindsFrom 0 p
      (p.tokens.length - p.current_token_ptr) rfl hend (by omega)

/-- Claim C8, witness. The characterization applied to the stream
`( ; ) ; Eof` from cursor 0: the `;` inside the parenthesis and the `)`
closing it are consumed without stopping, recovery stops after the second
`;` (the first one at depth 0), leaving the cursor at the `Eof`. -/
theorem claim_C8_witness :
    ZastParser.sync_loop 5 0
        (ZastParser.new [mkTok .LeftParenthesis 1, mkTok .Semicolon 2,
          mkTok .RightParenthesis 3, mkTok .Semicolon 4, mkTok .Eof 5]) =
      { ZastParser.new [mkTok .LeftParenthesis 1, mkTok .Semicolon 2,
          mkTok .RightParenthesis 3, mkTok .Semicolon 4, mkTok .Eof 5] with
        current_token_ptr := 0 + syncConsumed
          (ZastParser.new [mkTok .LeftParenthesis 1, mkTok .Semicolon 2,
            mkTok .RightParenthesis 3, mkTok .Semicolon 4,
            mkTok .Eof 5]).kindsFrom 0 } ∧
    (ZastParser.new [mkTok .LeftParenthesis 1, mkTok .Semicolon 2,
        mkTok .RightParenthesis 3, mkTok .Semicolon 4,
        mkTok .Eof 5]).sync_tokens =
      { ZastParser.new [mkTok .LeftParenthesis 1, mkTok .Semicolon 2,
          mkTok .RightParenthesis 3, mkTok .Semicolon 4, mkTok .Eof 5] with
        current_token_ptr := 0 + syncConsumed
          (ZastParser.new [mkTok .LeftParenthesis 1, mkTok .Semicolon 2,
            mkTok .RightParenthesis 3, mkTok .Semicolon 4,
            mkTok .Eof 5]).kindsFrom 0 } :=
  claim_C8 _ 5 (by simp [ZastParser.new]) (by rfl) (by simp [ZastParser.new])

/-- Claim C9. Analyzing a program of the restricted statement forms (function
declarations whose bodies hold only further function declarations or
blocks): whenever `analyze` returns (i.e. does not panic), every scope
pushed on entering a function body has been popped in LIFO order — the
final stack has the initial depth 0 and length 1 — and no name declared
inside any function body (parameters included) is resolvable afterwards:
every name still resolvable is one of the function names declared at the
outermost level. -/
theorem claim_C9 (prog : ZastProgram) (fuel : Nat)
    (hres : ∀ s ∈ prog.body, OnlyFnBlock s.node)
    (res : Except (List ZastError) Unit) (afin : ZastSemanticAnalyzer)
    (h : analyze fuel ZastSemanticAnalyzer.new prog = some (res, afin)) :
    afin.symbol_type_table.scope_depth = 0 ∧
    afin.symbol_type_table.scopes.length = 1 ∧
    ∀ n, (afin.symbol_type_table.resolve_ident_type n).isSome →
      n ∈ topFnNamesList prog.body := by
  simp only [analyze] at h
  cases hp : analyzeProgramStmts fuel ZastSemanticAnalyzer.new prog.body with
  | none => rw [hp] at h; cases h
  | some a2 =>
    rw [hp] at h
    simp only [] at h
    have hw0 : scopesWF ZastSemanticAnalyzer.new.symbol_type_table := by
      show 0 + 1 = 1
      rfl
    obtain ⟨_, k2, k3, _, k5⟩ :=
      analyzeProgramStmts_props prog.body fuel _ a2 hres hw0 hp
    have hdep : a2.symbol_type_table.scope_depth = 0 := k2
    have hlen : a2.symbol_type_table.scopes.length = 1 := k3
    have htab : afin.symbol_type_table = a2.symbol_type_table := by
      split at h <;> cases h <;> rfl
    obtain ⟨sc, hsc⟩ := List.length_eq_one.mp hlen
    refine ⟨by rw [htab, hdep], by rw [htab, hlen], ?_⟩
    intro n hn
    have hb : boundInTop a2.symbol_type_table n := by
      simp only [boundInTop, hdep, hsc]
      rw [htab] at hn
      simp only [ZastSymbolTypeTable.resolve_ident_type, hsc] at hn
      simp [List.findSome?] at hn
      cases hget : sc.get_ident_type n with
      | none => rw [hget] at hn; simp at hn
      | some v => simp [hget]
    rcases k5 n hb with h1 | h1
    · exfalso
      simp only [boundInTop, ZastSemanticAnalyzer.new,
        ZastSymbolTypeTable.new] at h1
      simp [SymbolTypeScope.get_ident_type, SymbolTypeScope.new,
        lookupSymbol] at h1
    · exact h1

/-- The program `fn main(a: i32): void {}` used by the C9 witness. -/
def prog_single_fn : ZastProgram :=
  ⟨[⟨.FunctionDeclaration "main" [⟨"a", .Primitive "i32", sp 9⟩] .Void
      ⟨.BlockStatement [], sp 20⟩, sp 1⟩]⟩

/-- The analyzer state after analyzing `prog_single_fn`: one scope, depth
0, only `main` bound. -/
def analyzer_after_single_fn : ZastSemanticAnalyzer :=
  ⟨[], ⟨[⟨[("main", ⟨.Function [.Integer 32 false] .Void, sp 1⟩)], 1⟩], 0⟩⟩

/-- Claim C9, witness. The scope discipline applied to the concrete program
`fn main(a: i32): void {}`: the analysis succeeds, the final stack is one
scope at depth 0, and only `main` — not the parameter `a` — remains
resolvable. -/
theorem claim_C9_witness :
    analyzer_after_single_fn.symbol_type_table.scope_depth = 0 ∧
    analyzer_after_single_fn.symbol_type_table.scopes.length = 1 ∧
    ∀ n, (analyzer_after_single_fn.symbol_type_table.resolve_ident_type n).isSome →
      n ∈ topFnNamesList prog_single_fn.body :=
  claim_C9 prog_single_fn 10
    (by
      intro s hs
      simp [prog_single_fn] at hs
      subst hs
      exact .fn _ _ _ _ (.block [] (fun t ht => absurd ht (List.not_mem_nil t))))
    (.ok ()) analyzer_after_single_fn rfl

/-- Claim C10. On a cursor within bounds, every token access of the cursor
primitives stays within bounds: `advance` refuses to move past the final
token (so the cursor it produces is still in bounds, over the unchanged
stream), `peek_at` falls back to the current index as a sentinel whenever
the lookahead would exceed the stream (so the index it reads is always in
bounds), and a freshly constructed parser over a non-empty stream starts
in bounds — hence `current_token`'s index `current_token_ptr` is valid
throughout. -/
theorem claim_C10 (p : ZastParser)
    (hne : p.tokens ≠ [])
    (_heof : (p.tokens.getLast hne).kind = .Eof)
    (h : p.current_token_ptr < p.tokens.length) :
    p.advance.tokens = p.tokens ∧
    p.advance.current_token_ptr < p.tokens.length ∧
    (∀ n, p.peek_at_index n < p.tokens.length) ∧
    ∀ ts : List Token, ts ≠ [] →
      (ZastParser.new ts).current_token_ptr < ts.length := by
  refine ⟨?_, ?_, ?_, ?_⟩
  · unfold ZastParser.advance
    split <;> rfl
  · unfold ZastParser.advance
    split
    next hc => simpa using hc
    next hc => exact h
  · intro n
    unfold ZastParser.peek_at_index
    split <;> omega
  · intro ts hts
    have hlen : ts.length ≠ 0 := fun h0 => hts (List.length_eq_zero.mp h0)
    exact Nat.pos_of_ne_zero hlen

/-- Claim C10, witness. The bounds invariant applied to the concrete
two-token stream `1 Eof` at cursor 0. -/
theorem claim_C10_witness :
    (ZastParser.new [intTok 1 1, mkTok .Eof 2]).advance.tokens =
        [intTok 1 1, mkTok .Eof 2] ∧
    (ZastParser.new [intTok 1 1, mkTok .Eof 2]).advance.current_token_ptr <
        2 ∧
    (∀ n, (ZastParser.new [intTok 1 1, mkTok .Eof 2]).peek_at_index n < 2) ∧
    ∀ ts : List Token, ts ≠ [] →
      (ZastParser.new ts).current_token_ptr < ts.length := by
  have := claim_C10 (ZastParser.new [intTok 1 1, mkTok .Eof 2])
    (by simp [ZastParser.new]) (by rfl) (by simp [ZastParser.new])
  simpa [ZastParser.new] using this

end Zast
